import Mathlib

/-!
Shallow embedding of the per-pool reconciliation loop of the EC2 spot manager
(`server/ec2spotmanager/tasks.py`, with the vCPU table from
`server/ec2spotmanager/common/ec2.py`).

Conventions of the embedding:
* machine integers are `Nat`/`Int`; the 16-bit state-code stripping
  `state_code & 255` of the source is written `% 256`;
* prices (Python floats) are rationals;
* Python exceptions (`KeyError`, `IndexError`, `AssertionError`, ...) are an
  `Except PyErr` result;
* Django objects are identified by a numeric primary key `id`; in-place
  mutation plus `save()` is a store update at that key, mutation without
  `save()` leaves the store unchanged (mirroring the ORM);
* network and cache side effects (spot requests, terminations, tag and
  blacklist writes) are recorded in an `Action` trace; log statements are not
  modelled.
-/

deriving instance DecidableEq for Except

namespace EC2SpotManager

/-- Python exception kinds that the translated code can raise. -/
inductive PyErr where
  | keyError
  | indexError
  | valueError
  | assertionError
  | runtimeError
  deriving DecidableEq, Repr

/-- Modelled from the spec (section 6): the `INSTANCE_STATE` table of
`models.py`, which is not under `src/`: pending=0, running=16,
shutting-down=32, terminated=48, stopping=64, stopped=80, requested=256. -/
def INSTANCE_STATE (name : String) : Nat :=
  if name = "pending" then 0
  else if name = "running" then 16
  else if name = "shutting-down" then 32
  else if name = "terminated" then 48
  else if name = "stopping" then 64
  else if name = "stopped" then 80
  else if name = "requested" then 256
  else 0

/-- Modelled from the spec (section 3): the closed set of pool status entry
kinds of `POOL_STATUS_ENTRY_TYPE` in `models.py`, which is not under `src/`. -/
inductive StatusKind where
  | priceTooLow
  | configError
  | unclassified
  | maxSpotExceeded
  | temporaryFailure
  deriving DecidableEq, Repr

/-- The `CORES_PER_INSTANCE` table of `common/ec2.py`: instance type name to
vCPU count. -/
def CORES_PER_INSTANCE : List (String × Nat) :=
  [("c1.medium", 2), ("c1.xlarge", 8), ("c3.2xlarge", 8), ("c3.4xlarge", 16),
   ("c3.8xlarge", 32), ("c3.large", 2), ("c3.xlarge", 4), ("c4.2xlarge", 8),
   ("c4.4xlarge", 16), ("c4.8xlarge", 36), ("c4.large", 2), ("c4.xlarge", 4),
   ("c5.18xlarge", 72), ("c5.2xlarge", 8), ("c5.4xlarge", 16), ("c5.9xlarge", 36),
   ("c5.large", 2), ("c5.xlarge", 4), ("c5d.18xlarge", 72), ("c5d.2xlarge", 8),
   ("c5d.4xlarge", 16), ("c5d.9xlarge", 36), ("c5d.large", 2), ("c5d.xlarge", 4),
   ("cc2.8xlarge", 32), ("cr1.8xlarge", 32), ("d2.2xlarge", 8), ("d2.4xlarge", 16),
   ("d2.8xlarge", 36), ("d2.xlarge", 4), ("f1.16xlarge", 64), ("f1.2xlarge", 8),
   ("g2.2xlarge", 8), ("g2.8xlarge", 32), ("g3.16xlarge", 64), ("g3.4xlarge", 16),
   ("g3.8xlarge", 32), ("h1.16xlarge", 64), ("h1.2xlarge", 8), ("h1.4xlarge", 16),
   ("h1.8xlarge", 32), ("hs1.8xlarge", 16), ("i2.2xlarge", 8), ("i2.4xlarge", 16),
   ("i2.8xlarge", 32), ("i2.xlarge", 4), ("i3.16xlarge", 64), ("i3.2xlarge", 8),
   ("i3.4xlarge", 16), ("i3.8xlarge", 32), ("i3.large", 2), ("i3.metal", 72),
   ("i3.xlarge", 4), ("m1.large", 2), ("m1.medium", 1), ("m1.small", 1),
   ("m1.xlarge", 4), ("m2.2xlarge", 4), ("m2.4xlarge", 8), ("m2.xlarge", 2),
   ("m3.2xlarge", 8), ("m3.large", 2), ("m3.medium", 1), ("m3.xlarge", 4),
   ("m4.10xlarge", 40), ("m4.16xlarge", 64), ("m4.2xlarge", 8), ("m4.4xlarge", 16),
   ("m4.large", 2), ("m4.xlarge", 4), ("m5.12xlarge", 48), ("m5.24xlarge", 96),
   ("m5.2xlarge", 8), ("m5.4xlarge", 16), ("m5.large", 2), ("m5.xlarge", 4),
   ("m5d.12xlarge", 48), ("m5d.24xlarge", 96), ("m5d.2xlarge", 8), ("m5d.4xlarge", 16),
   ("m5d.large", 2), ("m5d.xlarge", 4), ("p2.16xlarge", 64), ("p2.8xlarge", 32),
   ("p2.xlarge", 4), ("p3.16xlarge", 64), ("p3.2xlarge", 8), ("p3.8xlarge", 32),
   ("r3.2xlarge", 8), ("r3.4xlarge", 16), ("r3.8xlarge", 32), ("r3.large", 2),
   ("r3.xlarge", 4), ("r4.16xlarge", 64), ("r4.2xlarge", 8), ("r4.4xlarge", 16),
   ("r4.8xlarge", 32), ("r4.large", 2), ("r4.xlarge", 4), ("r5.12xlarge", 48),
   ("r5.24xlarge", 96), ("r5.2xlarge", 8), ("r5.4xlarge", 16), ("r5.large", 2),
   ("r5.xlarge", 4), ("r5d.12xlarge", 48), ("r5d.24xlarge", 96), ("r5d.2xlarge", 8),
   ("r5d.4xlarge", 16), ("r5d.large", 2), ("r5d.xlarge", 4), ("t1.micro", 1),
   ("t2.2xlarge", 8), ("t2.large", 2), ("t2.medium", 2), ("t2.micro", 1),
   ("t2.nano", 1), ("t2.small", 1), ("t2.xlarge", 4), ("x1.16xlarge", 64),
   ("x1.32xlarge", 128), ("x1e.16xlarge", 64), ("x1e.2xlarge", 8), ("x1e.32xlarge", 128),
   ("x1e.4xlarge", 16), ("x1e.8xlarge", 32), ("x1e.xlarge", 4), ("z1d.12xlarge", 48),
   ("z1d.2xlarge", 8), ("z1d.3xlarge", 12), ("z1d.6xlarge", 24), ("z1d.large", 2),
   ("z1d.xlarge", 4)]

/-- Dictionary lookup `CORES_PER_INSTANCE[t]` as an `Option`. -/
def lookupCores (t : String) : Option Nat :=
  (CORES_PER_INSTANCE.find? (fun e => e.1 = t)).map (fun e => e.2)

/-!
Rational arithmetic and comparisons used inside the executable definitions.
The library operations `Rat.add`, `Rat.mul` and `Rat.div` are `irreducible`,
so the embedding uses equivalents built from `Rat.divInt` together with the
boolean strict order `Rat.blt` (which is definitionally the order of `ℚ`);
the lemmas below identify them with the library operations.
-/

/-- Division of rationals, reducible. -/
def pyDiv (a b : Rat) : Rat :=
  Rat.divInt (a.num * (b.den : Int)) ((a.den : Int) * b.num)

/-- Addition of rationals, reducible. -/
def pyAdd (a b : Rat) : Rat :=
  Rat.divInt (a.num * (b.den : Int) + b.num * (a.den : Int)) ((a.den : Int) * (b.den : Int))

/-- Multiplication of rationals, reducible. -/
def pyMul (a b : Rat) : Rat :=
  Rat.divInt (a.num * b.num) ((a.den : Int) * (b.den : Int))

/-- The Python builtin `min` on two rationals, reducible. -/
def pyMin (a b : Rat) : Rat :=
  if b.blt a then b else a

theorem pyDiv_eq (a b : Rat) : pyDiv a b = a / b := by
  rw [pyDiv, Rat.divInt_eq_div]
  push_cast
  rcases eq_or_ne b 0 with rfl | hb
  · simp
  · have h1 : (b.num : ℚ) ≠ 0 := by exact_mod_cast Rat.num_ne_zero.mpr hb
    have h2 : ((a.den : ℚ)) ≠ 0 := by exact_mod_cast a.den_nz
    have h3 : ((b.den : ℚ)) ≠ 0 := by exact_mod_cast b.den_nz
    have hA : (a.num : ℚ) = a * a.den := (div_eq_iff h2).mp (Rat.num_div_den a)
    have hB : (b.num : ℚ) = b * b.den := (div_eq_iff h3).mp (Rat.num_div_den b)
    rw [div_eq_div_iff (mul_ne_zero h2 h1) hb, hA, hB]
    ring

theorem pyAdd_eq (a b : Rat) : pyAdd a b = a + b := by
  rw [pyAdd, Rat.divInt_eq_div]
  push_cast
  have h2 : ((a.den : ℚ)) ≠ 0 := by exact_mod_cast a.den_nz
  have h3 : ((b.den : ℚ)) ≠ 0 := by exact_mod_cast b.den_nz
  have hA : (a.num : ℚ) = a * a.den := (div_eq_iff h2).mp (Rat.num_div_den a)
  have hB : (b.num : ℚ) = b * b.den := (div_eq_iff h3).mp (Rat.num_div_den b)
  rw [div_eq_iff (mul_ne_zero h2 h3), hA, hB]
  ring

theorem pyMul_eq (a b : Rat) : pyMul a b = a * b := by
  rw [pyMul, Rat.divInt_eq_div]
  push_cast
  have h2 : ((a.den : ℚ)) ≠ 0 := by exact_mod_cast a.den_nz
  have h3 : ((b.den : ℚ)) ≠ 0 := by exact_mod_cast b.den_nz
  have hA : (a.num : ℚ) = a * a.den := (div_eq_iff h2).mp (Rat.num_div_den a)
  have hB : (b.num : ℚ) = b * b.den := (div_eq_iff h3).mp (Rat.num_div_den b)
  rw [div_eq_iff (mul_ne_zero h2 h3), hA, hB]
  ring

theorem pyMin_eq_min (a b : Rat) : pyMin a b = min a b := by
  unfold pyMin
  split_ifs with h
  · exact (min_eq_right (le_of_lt h)).symm
  · exact (min_eq_left (not_lt.mp h)).symm

theorem rat_blt_iff (a b : Rat) : a.blt b = true ↔ a < b := Iff.rfl

/-- A persisted `Instance` row. `id` is the primary key. `ec2_instance_id`
holds the spot request id while `status_code = 256` (requested) and the
provider instance id afterwards. An absent hostname is the empty string. -/
structure Instance where
  id : Nat
  pool : Nat
  ec2_instance_id : String
  ec2_region : String
  ec2_zone : String
  hostname : String
  status_code : Nat
  size : Nat
  created : Nat
  deriving DecidableEq, Repr

/-- A persisted `PoolStatusEntry` row. -/
structure PoolStatusEntry where
  pool : Nat
  type : StatusKind
  isCritical : Bool
  msg : String
  deriving DecidableEq, Repr

/-- A persisted `InstancePool` row (the fields the reconciler touches). -/
structure Pool where
  id : Nat
  isEnabled : Bool
  last_cycled : Option Nat
  deriving DecidableEq, Repr

/-- The flattened pool configuration (the fields `tasks.py` reads; the
boot-image fields `ec2_key_name`, `ec2_image_name`, `ec2_security_groups`,
`ec2_userdata`, `ec2_userdata_macros`, `ec2_raw_config`, `ec2_tags` only feed
the provider request payload and logs, which the embedding does not
observe). -/
structure PoolConfig where
  size : Nat
  cycle_interval : Nat
  ec2_allowed_regions : List String
  ec2_instance_types : List String
  ec2_max_price : Rat
  deriving DecidableEq, Repr

/-- Provider-side and cache-side effects issued by the reconciler, recorded
as a trace. `terminateCall` marks entry into `_terminate_pool_instances`,
`startPool` marks entry into `_start_pool_instances`. -/
inductive Action where
  | terminateCall (terminateByPool : Bool) (ec2Ids : List String)
  | terminateRegion (region : String) (terminateByPool : Bool) (ec2Ids : List String)
  | startPool (countCores : Int)
  | spotRequest (region zone ty : String) (count : Nat) (bid : Rat)
  | addUpdatableTag (ec2Id : String)
  | blacklistWrite (zone ty : String)
  deriving DecidableEq, Repr

/-- Result of the capacity-counting loop of `check_instance_pool`
(tasks.py lines 63-96): the store after deletions and saves, the in-memory
`running_instances` list, and the remaining `instance_cores_missing`. -/
structure CountResult where
  store : List Instance
  running : List Instance
  missing : Int
  deriving DecidableEq, Repr

/-- The capacity-counting loop of `check_instance_pool` (tasks.py lines
63-96) over the global store, acting on the rows of pool `p`.  A status code
of at least 256 is healed by subtracting 256 in memory only; codes in
running/pending/requested are counted without saving; shutting-down and
terminated rows are deleted; any other code is reset to 0 and saved, and
counted.  The `running` list holds the in-memory (healed) objects. -/
def countCapacity (p : Nat) (missing : Int) : List Instance → CountResult
  | [] => ⟨[], [], missing⟩
  | i :: rest =>
    if i.pool ≠ p then
      let r := countCapacity p missing rest
      ⟨i :: r.store, r.running, r.missing⟩
    else
      let s := if i.status_code ≥ 256 then i.status_code - 256 else i.status_code
      if s = INSTANCE_STATE "running" ∨ s = INSTANCE_STATE "pending" ∨
          s = INSTANCE_STATE "requested" then
        let r := countCapacity p (missing - (i.size : Int)) rest
        ⟨i :: r.store, { i with status_code := s } :: r.running, r.missing⟩
      else if s = INSTANCE_STATE "shutting-down" ∨ s = INSTANCE_STATE "terminated" then
        let r := countCapacity p missing rest
        ⟨r.store, r.running, r.missing⟩
      else
        let r := countCapacity p (missing - (i.size : Int)) rest
        ⟨{ i with status_code := 0 } :: r.store, { i with status_code := 0 } :: r.running,
          r.missing⟩

/-- Stable insertion used by `sortByCreated`. -/
def insertByCreated (i : Instance) : List Instance → List Instance
  | [] => [i]
  | j :: rest =>
    if j.created ≤ i.created then j :: insertByCreated i rest else i :: j :: rest

/-- The `order_by(created)` of the scale-down query: a stable sort by the
`created` timestamp, oldest first. -/
def sortByCreated (l : List Instance) : List Instance :=
  l.foldr insertByCreated []

/-- The greedy scale-down selection of `check_instance_pool` (tasks.py lines
117-129): iterate oldest first, skip a row whose size would overshoot the
(negative) deficit, stop as soon as the deficit reaches zero. -/
def scaleDownSelect (missing : Int) : List Instance → List Instance
  | [] => []
  | i :: rest =>
    if missing + (i.size : Int) > 0 then scaleDownSelect missing rest
    else if missing + (i.size : Int) = 0 then [i]
    else i :: scaleDownSelect (missing + (i.size : Int)) rest

/-- Sum of the `size` fields of a list of rows. -/
def sumSizes (l : List Instance) : Int :=
  (l.map (fun i => (i.size : Int))).sum

/-- Sum of the `size` fields of the rows of pool `p` in a store. -/
def poolCoreSum (p : Nat) (l : List Instance) : Int :=
  sumSizes (l.filter (fun i => i.pool = p))

/-- Stable insertion used by `sortRat`: `x` goes after every element at most
`x`. -/
def insertRat (x : Rat) : List Rat → List Rat
  | [] => [x]
  | y :: rest => if x.blt y then x :: y :: rest else y :: insertRat x rest

/-- Ascending sort of a list of rationals. -/
def sortRat (l : List Rat) : List Rat :=
  l.foldr insertRat []

/-- Modelled from the spec: `get_price_median` from `common/prices.py`, which
is not under `src/`; the median of a price series (the mean of the two middle
elements for an even length). -/
def get_price_median (data : List Rat) : Rat :=
  let s := sortRat data
  let n := s.length
  if n % 2 = 0 then pyDiv (pyAdd (s.getD (n / 2 - 1) 0) (s.getD (n / 2) 0)) 2
  else s.getD (n / 2) 0

/-- The price cache and the blacklist as the region selector reads them:
`price t` is the parsed JSON under key `ec2spot:price:<t>` (region, then
zone, then the price series with the most recent sample first), `blacklist z
t` is presence of the key `ec2spot:blacklist:<z>:<t>`. -/
structure PriceCache where
  price : String → Option (List (String × List (String × List Rat)))
  blacklist : String → String → Bool

/-- One event of the scan of `_get_best_region_zone`, in iteration order: a
candidate that passed the filters (with its per-core price median), or a zone
rejection with its most recent per-core price. -/
inductive ScanEntry where
  | acceptedEntry (region zone ty : String) (median : Rat)
  | rejectedEntry (zone : String) (price : Rat)
  deriving DecidableEq, Repr

/-- The zone loop of `_get_best_region_zone` (tasks.py lines 161-186) for one
instance type and one region, flattened into scan events.  A blacklisted
zone/type is skipped; an empty price series raises IndexError (the source
would fail at `prices[0]`); a type missing from `CORES_PER_INSTANCE` raises
KeyError. -/
def scanZones (cfg : PoolConfig) (cache : PriceCache) (t region : String)
    (l : List (String × List Rat)) : Except PyErr (List ScanEntry) :=
  match l with
  | [] => .ok []
  | (z, series) :: rest =>
    if cache.blacklist z t then scanZones cfg cache t region rest
    else
      match series with
      | [] => .error .indexError
      | h :: _ =>
        match lookupCores t with
        | none => .error .keyError
        | some cores => do
          let tail ← scanZones cfg cache t region rest
          let prices := series.map (fun p => pyDiv p (cores : Rat))
          if (cfg.ec2_max_price).blt (pyDiv h (cores : Rat)) then
            .ok (.rejectedEntry z (pyDiv h (cores : Rat)) :: tail)
          else
            .ok (.acceptedEntry region z t (get_price_median prices) :: tail)
termination_by structural l

/-- The region loop of `_get_best_region_zone` (tasks.py lines 158-161): a
region outside `ec2_allowed_regions` is skipped. -/
def scanRegions (cfg : PoolConfig) (cache : PriceCache) (t : String)
    (l : List (String × List (String × List Rat))) : Except PyErr (List ScanEntry) :=
  match l with
  | [] => .ok []
  | (r, zones) :: rest =>
    if cfg.ec2_allowed_regions.contains r then do
      let cur ← scanZones cfg cache t r zones
      let tail ← scanRegions cfg cache t rest
      .ok (cur ++ tail)
    else scanRegions cfg cache t rest
termination_by structural l

/-- The instance-type loop of `_get_best_region_zone` (tasks.py lines
152-157): a type with no cached price data is skipped. -/
def scanTypes (cfg : PoolConfig) (cache : PriceCache) (l : List String) :
    Except PyErr (List ScanEntry) :=
  match l with
  | [] => .ok []
  | t :: rest =>
    match cache.price t with
    | none => scanTypes cfg cache rest
    | some data => do
      let cur ← scanRegions cfg cache t data
      let tail ← scanTypes cfg cache rest
      .ok (cur ++ tail)
termination_by structural l

/-- The full scan of `_get_best_region_zone` in iteration order: instance
types in configuration order, then regions and zones in cache order. -/
def scanEntries (cfg : PoolConfig) (cache : PriceCache) : Except PyErr (List ScanEntry) :=
  scanTypes cfg cache cfg.ec2_instance_types

/-- Lookup in the `rejected_prices` association list. -/
def lookupZone (rej : List (String × Rat)) (z : String) : Option Rat :=
  (rej.find? (fun e => e.1 = z)).map (fun e => e.2)

/-- The update `rejected_prices[zone] = min(rejected_prices.get(zone, 9999),
prices[0])` of tasks.py line 175, with Python dict semantics: an existing key
is updated in place, a new key is appended. -/
def rejUpdate : List (String × Rat) → String → Rat → List (String × Rat)
  | [], z, p => [(z, pyMin 9999 p)]
  | (k, v) :: rest, z, p =>
    if k = z then (k, pyMin v p) :: rest else (k, v) :: rejUpdate rest z p

/-- One step of the running state of `_get_best_region_zone`: the current
best (region, zone, type, median) and the rejected-price map.  The best is
replaced only when the new median is strictly smaller (tasks.py line 180). -/
def scanStep (acc : Option (String × String × String × Rat) × List (String × Rat))
    (e : ScanEntry) : Option (String × String × String × Rat) × List (String × Rat) :=
  match e with
  | .acceptedEntry r z t m =>
    (match acc.1 with
     | none => some (r, z, t, m)
     | some q => if m.blt q.2.2.2 then some (r, z, t, m) else acc.1, acc.2)
  | .rejectedEntry z p => (acc.1, rejUpdate acc.2 z p)

/-- Return value of `_get_best_region_zone`: the best region, zone and
instance type (all `none` together when nothing qualified) and the
rejected-price map. -/
structure BestResult where
  region : Option String
  zone : Option String
  ty : Option String
  rejected : List (String × Rat)
  deriving DecidableEq, Repr

/-- The embedding of `_get_best_region_zone` (tasks.py lines 142-188).  The
function is pure (the local `rejected_prices` and `best_*` variables are its
only state), so it is staged as the scan in iteration order followed by the
fold of the loop body; an exception anywhere in the scan is the result of
the whole call, as in the source. -/
def get_best_region_zone (cfg : PoolConfig) (cache : PriceCache) :
    Except PyErr BestResult :=
  (scanEntries cfg cache).map (fun es =>
    let acc := es.foldl scanStep (none, [])
    match acc.1 with
    | none => ⟨none, none, none, acc.2⟩
    | some (r, z, t, _) => ⟨some r, some z, some t, acc.2⟩)

/-- Specification-side view of the scan: the qualifying quadruples, in scan
order. -/
def acceptedOf (es : List ScanEntry) : List (String × String × String × Rat) :=
  es.filterMap (fun e =>
    match e with
    | .acceptedEntry r z t m => some (r, z, t, m)
    | .rejectedEntry _ _ => none)

/-- Specification-side selection rule, following the words of the spec: the
quadruple with the minimal median; the first one seen at that median wins. -/
def firstMinByMedian :
    List (String × String × String × Rat) → Option (String × String × String × Rat)
  | [] => none
  | x :: rest =>
    match firstMinByMedian rest with
    | none => some x
    | some y => if (y.2.2.2).blt (x.2.2.2) then some y else some x

/-- Specification-side view of the scan: the most recent per-core prices at
which zone `z` was rejected, in scan order. -/
def rejectedPricesFor (z : String) (es : List ScanEntry) : List Rat :=
  es.filterMap (fun e =>
    match e with
    | .acceptedEntry _ _ _ _ => none
    | .rejectedEntry z' p => if z' = z then some p else none)

/-- Specification-side rejected map, pointwise: no binding when the zone was
never rejected, otherwise the minimum rejected price capped at the sentinel
9999 that seeds the running minimum in the source. -/
def specRejected (z : String) (es : List ScanEntry) : Option Rat :=
  match rejectedPricesFor z es with
  | [] => none
  | ps => some (ps.foldl min 9999)

/-- Running minimum with a seeded accumulator, the shape the rejected-map
fold takes on a single key. -/
def mergeRej : Option Rat → List Rat → Option Rat
  | o, [] => o
  | o, p :: ps => mergeRej (some (min (o.getD 9999) p)) ps

theorem lookupZone_cons (k : String) (v : Rat) (rej : List (String × Rat)) (z : String) :
    lookupZone ((k, v) :: rej) z = if k = z then some v else lookupZone rej z := by
  simp only [lookupZone, List.find?]
  split <;> rename_i h
  · simp_all
  · simp_all

theorem lookupZone_rejUpdate_self (rej : List (String × Rat)) (z : String) (p : Rat) :
    lookupZone (rejUpdate rej z p) z = some (min ((lookupZone rej z).getD 9999) p) := by
  induction rej with
  | nil => simp [rejUpdate, lookupZone, List.find?, pyMin_eq_min]
  | cons e rest ih =>
    obtain ⟨k, v⟩ := e
    by_cases hk : k = z
    · subst hk
      simp [rejUpdate, lookupZone_cons, pyMin_eq_min]
    · simp [rejUpdate, hk, lookupZone_cons, ih]

theorem lookupZone_rejUpdate_ne (rej : List (String × Rat)) (z z' : String) (p : Rat)
    (h : z' ≠ z) :
    lookupZone (rejUpdate rej z p) z' = lookupZone rej z' := by
  induction rej with
  | nil =>
    rw [show rejUpdate [] z p = [(z, pyMin 9999 p)] from rfl, lookupZone_cons,
      if_neg (Ne.symm h)]
  | cons e rest ih =>
    obtain ⟨k, v⟩ := e
    by_cases hk : k = z
    · subst hk
      rw [show rejUpdate ((k, v) :: rest) k p = (k, pyMin v p) :: rest from by
        simp [rejUpdate]]
      rw [lookupZone_cons, lookupZone_cons, if_neg (Ne.symm h), if_neg (Ne.symm h)]
    · rw [show rejUpdate ((k, v) :: rest) z p = (k, v) :: rejUpdate rest z p from by
        simp [rejUpdate, hk]]
      rw [lookupZone_cons, lookupZone_cons, ih]

theorem mergeRej_some (v : Rat) (ps : List Rat) :
    mergeRej (some v) ps = some (ps.foldl min v) := by
  induction ps generalizing v with
  | nil => rfl
  | cons p ps ih => simp [mergeRej, ih]

/-- Absorbing one comparison step into the head of `firstMinByMedian`. -/
theorem firstMinByMedian_cons_cons (q x : String × String × String × Rat)
    (l : List (String × String × String × Rat)) :
    firstMinByMedian (q :: x :: l) =
      firstMinByMedian ((if (x.2.2.2).blt (q.2.2.2) then x else q) :: l) := by
  obtain ⟨qr, qz, qt, qm⟩ := q
  obtain ⟨xr, xz, xt, xm⟩ := x
  simp only [firstMinByMedian]
  cases h : firstMinByMedian l with
  | none =>
    simp only [h, rat_blt_iff]
    by_cases h2 : xm < qm <;> simp [h2]
  | some y =>
    obtain ⟨yr, yz, yt, ym⟩ := y
    simp only [h, rat_blt_iff]
    by_cases h1 : ym < xm <;> by_cases h2 : xm < qm <;> by_cases h3 : ym < qm <;>
      simp [h1, h2, h3] <;> linarith

/-- The best component of the selector fold is the first quadruple at the
minimal median, seeded by the accumulator. -/
theorem scanFold_best (es : List ScanEntry) :
    ∀ (b : Option (String × String × String × Rat)) (rej : List (String × Rat)),
      (es.foldl scanStep (b, rej)).1 =
        (match b with
         | none => firstMinByMedian (acceptedOf es)
         | some q => firstMinByMedian (q :: acceptedOf es)) := by
  induction es with
  | nil =>
    intro b rej
    cases b <;> simp [firstMinByMedian, acceptedOf]
  | cons e es ih =>
    intro b rej
    cases e with
    | rejectedEntry z p =>
      have : acceptedOf (ScanEntry.rejectedEntry z p :: es) = acceptedOf es := by
        simp [acceptedOf]
      rw [this]
      rw [show (ScanEntry.rejectedEntry z p :: es).foldl scanStep (b, rej) =
          es.foldl scanStep (b, rejUpdate rej z p) from rfl]
      exact ih b (rejUpdate rej z p)
    | acceptedEntry r z t m =>
      have hacc : acceptedOf (ScanEntry.acceptedEntry r z t m :: es) =
          (r, z, t, m) :: acceptedOf es := by
        simp [acceptedOf]
      rw [hacc]
      cases b with
      | none =>
        rw [show (ScanEntry.acceptedEntry r z t m :: es).foldl scanStep (none, rej) =
            es.foldl scanStep (some (r, z, t, m), rej) from rfl]
        exact ih (some (r, z, t, m)) rej
      | some q =>
        rw [show (ScanEntry.acceptedEntry r z t m :: es).foldl scanStep (some q, rej) =
            es.foldl scanStep
              (if m.blt q.2.2.2 then some (r, z, t, m) else some q, rej) from rfl]
        by_cases hqm : m.blt q.2.2.2 = true
        · rw [if_pos hqm, ih (some (r, z, t, m)) rej]
          show firstMinByMedian ((r, z, t, m) :: acceptedOf es) =
            firstMinByMedian (q :: (r, z, t, m) :: acceptedOf es)
          rw [firstMinByMedian_cons_cons q (r, z, t, m) (acceptedOf es)]
          exact congrArg firstMinByMedian (by rw [if_pos hqm])
        · rw [if_neg hqm, ih (some q) rej]
          show firstMinByMedian (q :: acceptedOf es) =
            firstMinByMedian (q :: (r, z, t, m) :: acceptedOf es)
          rw [firstMinByMedian_cons_cons q (r, z, t, m) (acceptedOf es)]
          exact congrArg firstMinByMedian (by rw [if_neg hqm])

/-- The rejected component of the selector fold, pointwise: a seeded running
minimum over the rejected prices of the zone. -/
theorem scanFold_rejected (es : List ScanEntry) :
    ∀ (b : Option (String × String × String × Rat)) (rej : List (String × Rat)) (z : String),
      lookupZone (es.foldl scanStep (b, rej)).2 z =
        mergeRej (lookupZone rej z) (rejectedPricesFor z es) := by
  induction es with
  | nil =>
    intro b rej z
    simp [rejectedPricesFor, mergeRej]
  | cons e es ih =>
    intro b rej z
    cases e with
    | acceptedEntry r z' t m =>
      have : rejectedPricesFor z (ScanEntry.acceptedEntry r z' t m :: es) =
          rejectedPricesFor z es := by simp [rejectedPricesFor]
      rw [this]
      rw [show (ScanEntry.acceptedEntry r z' t m :: es).foldl scanStep (b, rej) =
          es.foldl scanStep
            ((scanStep (b, rej) (ScanEntry.acceptedEntry r z' t m)).1, rej) from rfl]
      exact ih _ rej z
    | rejectedEntry z' p =>
      rw [show (ScanEntry.rejectedEntry z' p :: es).foldl scanStep (b, rej) =
          es.foldl scanStep (b, rejUpdate rej z' p) from rfl]
      rw [ih b (rejUpdate rej z' p) z]
      by_cases hz : z' = z
      · subst hz
        rw [lookupZone_rejUpdate_self]
        have : rejectedPricesFor z' (ScanEntry.rejectedEntry z' p :: es) =
            p :: rejectedPricesFor z' es := by simp [rejectedPricesFor]
        rw [this]
        rfl
      · rw [lookupZone_rejUpdate_ne rej z' z p (fun h => hz h.symm)]
        have : rejectedPricesFor z (ScanEntry.rejectedEntry z' p :: es) =
            rejectedPricesFor z es := by simp [rejectedPricesFor, hz]
        rw [this]

theorem mergeRej_none_eq_spec (z : String) (es : List ScanEntry) :
    mergeRej none (rejectedPricesFor z es) = specRejected z es := by
  cases h : rejectedPricesFor z es with
  | nil => simp [specRejected, h, mergeRej]
  | cons p ps =>
    simp only [specRejected, h]
    show mergeRej (some (min 9999 p)) ps = some ((p :: ps).foldl min 9999)
    rw [mergeRej_some]
    rfl

/-- Concrete input exhibiting the sentinel cap: a single zone rejected at a
per-core price of 10000. -/
def c5cfg : PoolConfig :=
  ⟨8, 3600, ["us-east-1"], ["m1.small"], mkRat 1 10⟩

/-- Cache for `c5cfg`: one price sample of 10000 dollars for the one-core
type m1.small. -/
def c5cache : PriceCache :=
  ⟨fun t => if t = "m1.small" then some [("us-east-1", [("us-east-1a", [10000])])] else none,
   fun _ _ => false⟩

/-- Configuration of the end-to-end scenario 1 of the spec: 8 cores wanted,
types c4.large and c4.xlarge, price ceiling 0.10 dollars per core. -/
def c5wcfg : PoolConfig :=
  ⟨8, 3600, ["us-east-1"], ["c4.large", "c4.xlarge"], mkRat 1 10⟩

/-- Cache for `c5wcfg`: c4.xlarge at 0.05/0.06/0.05 dollars and c4.large at
0.03/0.04 dollars in us-east-1a. -/
def c5wcache : PriceCache :=
  ⟨fun t =>
    if t = "c4.xlarge" then
      some [("us-east-1", [("us-east-1a", [mkRat 1 20, mkRat 3 50, mkRat 1 20])])]
    else if t = "c4.large" then
      some [("us-east-1", [("us-east-1a", [mkRat 3 100, mkRat 1 25])])]
    else none,
   fun _ _ => false⟩

/-- The scan of `c5wcfg`/`c5wcache`: both types qualify, with per-core
medians 0.0175 and 0.0125 dollars. -/
def c5wScan : List ScanEntry :=
  [ScanEntry.acceptedEntry "us-east-1" "us-east-1a" "c4.large" (mkRat 7 400),
   ScanEntry.acceptedEntry "us-east-1" "us-east-1a" "c4.xlarge" (mkRat 1 80)]

/-- C5 (amended): on a cache whose price series are non-empty (so that the
scan raises no IndexError), `_get_best_region_zone` returns the first
qualifying (region, zone, type) at the minimal per-core median - candidates
enumerated in configuration order for types and cache order for regions and
zones, filtered by allowed region, blacklist and the most recent per-core
price against `ec2_max_price` - and a rejected map holding, per zone, the
minimum rejected most-recent per-core price capped at the sentinel 9999; all
three best components are null when nothing qualified. -/
theorem c5_region_selector_amended (cfg : PoolConfig) (cache : PriceCache)
    (es : List ScanEntry) (hs : scanEntries cfg cache = .ok es) :
    ∃ res : BestResult, get_best_region_zone cfg cache = .ok res ∧
      res.region = (firstMinByMedian (acceptedOf es)).map (fun q => q.1) ∧
      res.zone = (firstMinByMedian (acceptedOf es)).map (fun q => q.2.1) ∧
      res.ty = (firstMinByMedian (acceptedOf es)).map (fun q => q.2.2.1) ∧
      ∀ z : String, lookupZone res.rejected z = specRejected z es := by
  have hacc1 : (es.foldl scanStep (none, [])).1 = firstMinByMedian (acceptedOf es) :=
    scanFold_best es none []
  have hrej : ∀ z, lookupZone (es.foldl scanStep (none, [])).2 z = specRejected z es := by
    intro z
    rw [scanFold_rejected es none [] z]
    rw [show lookupZone [] z = none from rfl]
    exact mergeRej_none_eq_spec z es
  simp only [get_best_region_zone, hs, Except.map]
  cases hfm : firstMinByMedian (acceptedOf es) with
  | none =>
    refine ⟨⟨none, none, none, (es.foldl scanStep (none, [])).2⟩, ?_, rfl, rfl, rfl, hrej⟩
    rw [show (es.foldl scanStep (none, [])) =
        ((es.foldl scanStep (none, [])).1, (es.foldl scanStep (none, [])).2) from rfl,
      hacc1, hfm]
  | some q =>
    obtain ⟨qr, qz, qt, qm⟩ := q
    refine ⟨⟨some qr, some qz, some qt, (es.foldl scanStep (none, [])).2⟩, ?_, rfl, rfl, rfl,
      hrej⟩
    rw [show (es.foldl scanStep (none, [])) =
        ((es.foldl scanStep (none, [])).1, (es.foldl scanStep (none, [])).2) from rfl,
      hacc1, hfm]

/-- C5 counterexample: with the single rejected per-core price 10000 the
stored rejected value is the sentinel 9999, not the minimum rejected price
10000 that the claim requires. -/
theorem c5_region_selector_counterexample :
    get_best_region_zone c5cfg c5cache =
      .ok ⟨none, none, none, [("us-east-1a", (9999 : Rat))]⟩ ∧
    scanEntries c5cfg c5cache = .ok [ScanEntry.rejectedEntry "us-east-1a" (10000 : Rat)] ∧
    (9999 : Rat) ≠ 10000 := by
  refine ⟨by decide, by decide, by norm_num⟩

/-- C5 witness: the amended theorem applied to the concrete scenario-1
configuration and cache. -/
theorem c5_region_selector_witness :
    scanEntries c5wcfg c5wcache = .ok c5wScan ∧
    (∃ res : BestResult, get_best_region_zone c5wcfg c5wcache = .ok res ∧
      res.region = (firstMinByMedian (acceptedOf c5wScan)).map (fun q => q.1) ∧
      res.zone = (firstMinByMedian (acceptedOf c5wScan)).map (fun q => q.2.1) ∧
      res.ty = (firstMinByMedian (acceptedOf c5wScan)).map (fun q => q.2.2.1) ∧
      ∀ z : String, lookupZone res.rejected z = specRejected z c5wScan) :=
  ⟨by decide, c5_region_selector_amended c5wcfg c5wcache c5wScan (by decide)⟩

theorem INSTANCE_STATE_pending : INSTANCE_STATE "pending" = 0 := rfl

theorem INSTANCE_STATE_running : INSTANCE_STATE "running" = 16 := rfl

theorem INSTANCE_STATE_shutting_down : INSTANCE_STATE "shutting-down" = 32 := rfl

theorem INSTANCE_STATE_terminated : INSTANCE_STATE "terminated" = 48 := rfl

theorem INSTANCE_STATE_requested : INSTANCE_STATE "requested" = 256 := rfl

theorem insertByCreated_perm (i : Instance) (l : List Instance) :
    (insertByCreated i l).Perm (i :: l) := by
  induction l with
  | nil => exact List.Perm.refl _
  | cons j rest ih =>
    unfold insertByCreated
    split_ifs with h
    · exact (ih.cons j).trans (List.Perm.swap i j rest)
    · exact List.Perm.refl _

theorem insertByCreated_sorted (i : Instance) {l : List Instance}
    (hl : List.Sorted (fun a b : Instance => a.created ≤ b.created) l) :
    List.Sorted (fun a b : Instance => a.created ≤ b.created) (insertByCreated i l) := by
  induction l with
  | nil => simp [insertByCreated]
  | cons j rest ih =>
    rw [List.sorted_cons] at hl
    obtain ⟨hj, hrest⟩ := hl
    unfold insertByCreated
    split_ifs with h
    · rw [List.sorted_cons]
      refine ⟨?_, ih hrest⟩
      intro x hx
      rcases List.mem_cons.mp ((insertByCreated_perm i rest).mem_iff.mp hx) with rfl | hx'
      · exact h
      · exact hj x hx'
    · rw [List.sorted_cons]
      refine ⟨?_, by rw [List.sorted_cons]; exact ⟨hj, hrest⟩⟩
      intro x hx
      rcases List.mem_cons.mp hx with rfl | hx'
      · exact le_of_lt (not_le.mp h)
      · exact le_trans (le_of_lt (not_le.mp h)) (hj x hx')

theorem sortByCreated_perm (l : List Instance) : (sortByCreated l).Perm l := by
  induction l with
  | nil => exact List.Perm.refl _
  | cons i rest ih =>
    exact (insertByCreated_perm i (sortByCreated rest)).trans (ih.cons i)

theorem sortByCreated_sorted (l : List Instance) :
    List.Sorted (fun a b : Instance => a.created ≤ b.created) (sortByCreated l) := by
  induction l with
  | nil => simp [sortByCreated]
  | cons i rest ih => exact insertByCreated_sorted i ih

theorem scaleDownSelect_sublist (m : Int) (l : List Instance) :
    (scaleDownSelect m l).Sublist l := by
  induction l generalizing m with
  | nil => exact List.Sublist.refl _
  | cons i rest ih =>
    unfold scaleDownSelect
    split_ifs with h1 h2
    · exact (ih m).cons i
    · exact (List.nil_sublist rest).cons₂ i
    · exact (ih (m + (i.size : Int))).cons₂ i

theorem scaleDownSelect_sum_le (m : Int) (l : List Instance) (hm : m < 0)
    (hpos : ∀ i ∈ l, 0 < i.size) :
    sumSizes (scaleDownSelect m l) ≤ -m := by
  induction l generalizing m with
  | nil =>
    simp only [scaleDownSelect, sumSizes, List.map_nil, List.sum_nil]
    linarith
  | cons i rest ih =>
    unfold scaleDownSelect
    split_ifs with h1 h2
    · exact ih m hm (fun j hj => hpos j (List.mem_cons_of_mem i hj))
    · simp only [sumSizes, List.map_cons, List.map_nil, List.sum_cons, List.sum_nil]
      linarith
    · have hm' : m + (i.size : Int) < 0 := by
        rcases lt_trichotomy (m + (i.size : Int)) 0 with h | h | h
        · exact h
        · exact absurd h h2
        · exact absurd h h1
      have := ih (m + (i.size : Int)) hm' (fun j hj => hpos j (List.mem_cons_of_mem i hj))
      simp only [sumSizes, List.map_cons, List.sum_cons] at this ⊢
      linarith

/-- C6: scale-down selects, oldest-first over a stable sort by `created`, a
subsequence of the pool rows whose total size never exceeds the excess
`-instance_cores_missing`; either the excess is matched exactly or the pool
stays strictly over capacity this tick (the remaining total exceeds the
total minus the excess). -/
theorem c6_scale_down_greedy (missing : Int) (insts : List Instance)
    (hm : missing < 0) (hpos : ∀ i ∈ insts, 0 < i.size) :
    (sortByCreated insts).Perm insts ∧
    List.Sorted (fun a b : Instance => a.created ≤ b.created) (sortByCreated insts) ∧
    (scaleDownSelect missing (sortByCreated insts)).Sublist (sortByCreated insts) ∧
    sumSizes (scaleDownSelect missing (sortByCreated insts)) ≤ -missing ∧
    (sumSizes (scaleDownSelect missing (sortByCreated insts)) = -missing ∨
      sumSizes insts - sumSizes (scaleDownSelect missing (sortByCreated insts)) >
        sumSizes insts + missing) := by
  have hperm := sortByCreated_perm insts
  have hle := scaleDownSelect_sum_le missing (sortByCreated insts) hm
    (fun j hj => hpos j (hperm.mem_iff.mp hj))
  refine ⟨hperm, sortByCreated_sorted insts, scaleDownSelect_sublist _ _, hle, ?_⟩
  rcases eq_or_ne (sumSizes (scaleDownSelect missing (sortByCreated insts))) (-missing) with
    h | h
  · exact Or.inl h
  · exact Or.inr (by have := lt_of_le_of_ne hle h; linarith)

/-- C6 witness: excess of 6 cores over rows of sizes 8, 2 and 4 (oldest
first): the size-8 row is skipped, the rows of sizes 2 and 4 are selected,
matching the excess exactly. -/
theorem c6_scale_down_greedy_witness :
    ((-6 : Int) < 0 ∧
      ∀ i ∈ [⟨1, 1, "i-1", "r", "z", "h", 16, 8, 1⟩,
             ⟨2, 1, "i-2", "r", "z", "h", 16, 2, 2⟩,
             ⟨3, 1, "i-3", "r", "z", "h", 16, 4, 3⟩], 0 < Instance.size i) ∧
    scaleDownSelect (-6)
        (sortByCreated [⟨1, 1, "i-1", "r", "z", "h", 16, 8, 1⟩,
                        ⟨2, 1, "i-2", "r", "z", "h", 16, 2, 2⟩,
                        ⟨3, 1, "i-3", "r", "z", "h", 16, 4, 3⟩]) =
      [⟨2, 1, "i-2", "r", "z", "h", 16, 2, 2⟩, ⟨3, 1, "i-3", "r", "z", "h", 16, 4, 3⟩] ∧
    (sumSizes (scaleDownSelect (-6)
        (sortByCreated [⟨1, 1, "i-1", "r", "z", "h", 16, 8, 1⟩,
                        ⟨2, 1, "i-2", "r", "z", "h", 16, 2, 2⟩,
                        ⟨3, 1, "i-3", "r", "z", "h", 16, 4, 3⟩])) ≤ -(-6) ∧
      (sumSizes (scaleDownSelect (-6)
          (sortByCreated [⟨1, 1, "i-1", "r", "z", "h", 16, 8, 1⟩,
                          ⟨2, 1, "i-2", "r", "z", "h", 16, 2, 2⟩,
                          ⟨3, 1, "i-3", "r", "z", "h", 16, 4, 3⟩])) = -(-6) ∨
        sumSizes [⟨1, 1, "i-1", "r", "z", "h", 16, 8, 1⟩,
                  ⟨2, 1, "i-2", "r", "z", "h", 16, 2, 2⟩,
                  ⟨3, 1, "i-3", "r", "z", "h", 16, 4, 3⟩] -
            sumSizes (scaleDownSelect (-6)
              (sortByCreated [⟨1, 1, "i-1", "r", "z", "h", 16, 8, 1⟩,
                              ⟨2, 1, "i-2", "r", "z", "h", 16, 2, 2⟩,
                              ⟨3, 1, "i-3", "r", "z", "h", 16, 4, 3⟩])) >
          sumSizes [⟨1, 1, "i-1", "r", "z", "h", 16, 8, 1⟩,
                    ⟨2, 1, "i-2", "r", "z", "h", 16, 2, 2⟩,
                    ⟨3, 1, "i-3", "r", "z", "h", 16, 4, 3⟩] + (-6))) :=
  ⟨⟨by decide, by decide⟩, by decide,
    (c6_scale_down_greedy (-6) _ (by decide) (by decide)).2.2.2⟩

/-- C10: a row of the pool with `status_code ≥ 256` whose healed code
(after subtracting 256) is running, pending or requested is counted (the
deficit drops by its size, the in-memory object carries the healed code) but
the store keeps the original row - no save; a row whose healed code is
unrecognized is persisted with `status_code = 0` and still counted. -/
theorem c10_healer_counting_frame (p : Nat) (missing : Int) (i : Instance)
    (rest : List Instance) (hpool : i.pool = p) (hge : i.status_code ≥ 256) :
    ((i.status_code - 256 = INSTANCE_STATE "running" ∨
      i.status_code - 256 = INSTANCE_STATE "pending" ∨
      i.status_code - 256 = INSTANCE_STATE "requested") →
      countCapacity p missing (i :: rest) =
        ⟨i :: (countCapacity p (missing - (i.size : Int)) rest).store,
         { i with status_code := i.status_code - 256 } ::
           (countCapacity p (missing - (i.size : Int)) rest).running,
         (countCapacity p (missing - (i.size : Int)) rest).missing⟩) ∧
    ((i.status_code - 256 ∉ [INSTANCE_STATE "running", INSTANCE_STATE "pending",
        INSTANCE_STATE "requested", INSTANCE_STATE "shutting-down",
        INSTANCE_STATE "terminated"]) →
      countCapacity p missing (i :: rest) =
        ⟨{ i with status_code := 0 } :: (countCapacity p (missing - (i.size : Int)) rest).store,
         { i with status_code := 0 } ::
           (countCapacity p (missing - (i.size : Int)) rest).running,
         (countCapacity p (missing - (i.size : Int)) rest).missing⟩) := by
  have hnp : ¬ i.pool ≠ p := by simp [hpool]
  constructor
  · intro hcase
    simp only [countCapacity, if_neg hnp, if_pos hge]
    rw [if_pos hcase]
  · intro hcase
    simp only [List.mem_cons, List.mem_nil_iff, or_false, not_or] at hcase
    obtain ⟨h1, h2, h3, h4, h5⟩ := hcase
    simp only [countCapacity, if_neg hnp, if_pos hge]
    have hA : ¬ (i.status_code - 256 = INSTANCE_STATE "running" ∨
        i.status_code - 256 = INSTANCE_STATE "pending" ∨
        i.status_code - 256 = INSTANCE_STATE "requested") :=
      fun hc => hc.elim h1 (fun hc2 => hc2.elim h2 h3)
    have hB : ¬ (i.status_code - 256 = INSTANCE_STATE "shutting-down" ∨
        i.status_code - 256 = INSTANCE_STATE "terminated") :=
      fun hc => hc.elim h4 h5
    rw [if_neg hA, if_neg hB]

/-- C10 witness: status 272 heals to running (counted, store row unchanged);
status 300 heals to the unrecognized 44 (store row saved with status 0). -/
theorem c10_healer_counting_frame_witness :
    ((⟨1, 1, "i-1", "r", "z", "h", 272, 4, 1⟩ : Instance).pool = 1 ∧
      (⟨1, 1, "i-1", "r", "z", "h", 272, 4, 1⟩ : Instance).status_code ≥ 256 ∧
      (⟨2, 1, "i-2", "r", "z", "h", 300, 2, 2⟩ : Instance).pool = 1 ∧
      (⟨2, 1, "i-2", "r", "z", "h", 300, 2, 2⟩ : Instance).status_code ≥ 256) ∧
    countCapacity 1 10 [⟨1, 1, "i-1", "r", "z", "h", 272, 4, 1⟩] =
      ⟨[⟨1, 1, "i-1", "r", "z", "h", 272, 4, 1⟩],
       [⟨1, 1, "i-1", "r", "z", "h", 16, 4, 1⟩], 6⟩ ∧
    countCapacity 1 10 [⟨2, 1, "i-2", "r", "z", "h", 300, 2, 2⟩] =
      ⟨[⟨2, 1, "i-2", "r", "z", "h", 0, 2, 2⟩],
       [⟨2, 1, "i-2", "r", "z", "h", 0, 2, 2⟩], 8⟩ :=
  ⟨⟨rfl, by decide, rfl, by decide⟩,
    by
      have h := (c10_healer_counting_frame 1 10 ⟨1, 1, "i-1", "r", "z", "h", 272, 4, 1⟩ []
        rfl (by decide)).1 (by decide)
      rw [h]
      decide,
    by
      have h := (c10_healer_counting_frame 1 10 ⟨2, 1, "i-2", "r", "z", "h", 300, 2, 2⟩ []
        rfl (by decide)).2 (by decide)
      rw [h]
      decide⟩

/-- The `SpotManager` tag prefix of tasks.py. -/
def SPOTMGR_TAG : String := "SpotManager"

/-- Python substring containment `pat in s`. -/
def containsSubstr (s pat : String) : Bool :=
  (List.range (s.length + 1)).any (fun i => pat.toList.isPrefixOf (s.toList.drop i))

/-- The boto-error classification shared verbatim by `_start_pool_instances`
(tasks.py lines 371-397) and `_update_pool_instances` (lines 647-673):
`MaxSpotInstanceCountExceeded` in the message gives a deduplicated
max-spot-instance-count-exceeded entry, `Service Unavailable` an
(unconditional) temporary-failure entry, anything else a critical
unclassified entry. -/
def classifyBotoError (entries : List PoolStatusEntry) (p : Nat) (msg : String) :
    List PoolStatusEntry :=
  if containsSubstr msg "MaxSpotInstanceCountExceeded" then
    if (entries.filter (fun e =>
        decide (e.pool = p ∧ e.type = StatusKind.maxSpotExceeded))).isEmpty then
      entries ++ [⟨p, StatusKind.maxSpotExceeded, false,
        "Auto-selected region exceeded its maximum spot instance count."⟩]
    else entries
  else if containsSubstr msg "Service Unavailable" then
    entries ++ [⟨p, StatusKind.temporaryFailure, false, "Temporary failure occurred: " ++ msg⟩]
  else
    entries ++ [⟨p, StatusKind.unclassified, true, "Unclassified error occurred: " ++ msg⟩]

/-- Store lookup by primary key (a Django object reference). -/
def storeFind (store : List Instance) (pk : Nat) : Option Instance :=
  store.find? (fun i => i.id = pk)

/-- In-place mutation plus `save()` of the row with primary key `pk`. -/
def storeUpdate (store : List Instance) (pk : Nat) (f : Instance → Instance) : List Instance :=
  store.map (fun i => if i.id = pk then f i else i)

/-- `delete()` of the row with primary key `pk`. -/
def storeDelete (store : List Instance) (pk : Nat) : List Instance :=
  store.filter (fun i => decide (¬ i.id = pk))

/-- Dictionary read of `instances_by_ids`. -/
def assocGet (m : List (String × Nat)) (k : String) : Option Nat :=
  (m.find? (fun e => e.1 = k)).map (fun e => e.2)

/-- Python `del m[k]`. -/
def assocErase (m : List (String × Nat)) (k : String) : List (String × Nat) :=
  m.filter (fun e => decide (¬ e.1 = k))

/-- Python `m[k] = v` with dict semantics. -/
def assocSet (m : List (String × Nat)) (k : String) (v : Nat) : List (String × Nat) :=
  if (m.find? (fun e => e.1 = k)).isSome then
    m.map (fun e => if e.1 = k then (e.1, v) else e)
  else m ++ [(k, v)]

/-- The id list of one region in `instance_ids_by_region`. -/
def regionIds (m : List (String × List String)) (r : String) : List String :=
  ((m.find? (fun e => e.1 = r)).map (fun e => e.2)).getD []

/-- Append an id to the list of one region. -/
def regionAppend (m : List (String × List String)) (r id : String) :
    List (String × List String) :=
  m.map (fun e => if e.1 = r then (e.1, e.2 ++ [id]) else e)

/-- `_get_instance_ids_by_region` (tasks.py lines 452-460): group the ids by
region, regions in first-seen order. -/
def get_instance_ids_by_region (insts : List Instance) : List (String × List String) :=
  insts.foldl (fun m i =>
    if (m.find? (fun e => e.1 = i.ec2_region)).isSome then
      regionAppend m i.ec2_region i.ec2_instance_id
    else m ++ [(i.ec2_region, [i.ec2_instance_id])]) []

/-- `_get_instances_by_ids` (tasks.py lines 463-467), mapping each ec2 id to
the primary key of its row (the embedding keeps object references as primary
keys). -/
def get_instances_by_ids (insts : List Instance) : List (String × Nat) :=
  insts.foldl (fun m i => assocSet m i.ec2_instance_id i.id) []

/-- Python `list.remove`: drop the first occurrence, ValueError when
absent. -/
def removeFirst (l : List Nat) (x : Nat) : Except PyErr (List Nat) :=
  match l with
  | [] => .error .valueError
  | y :: rest =>
    if y = x then .ok rest else (removeFirst rest x).map (fun l' => y :: l')

/-- One outcome of `check_spot_requests`: a boto `Instance` (fulfilled), a
boto `SpotInstanceRequest` (with its state, status code and launch
specification instance type), `None` (still open), or anything else. -/
inductive SpotResult where
  | fulfilled (instId hostname : String) (stateCode : Nat)
  | request (state : String) (statusCode : String) (launchType : String)
  | stillOpen
  | other
  deriving DecidableEq, Repr

/-- One instance as returned by the provider `find`. -/
structure BotoInstance where
  id : String
  state_code : Nat
  tags : List (String × String)
  public_dns_name : String
  deriving DecidableEq, Repr

/-- Provider behavior for one region during `_update_pool_instances`:
`connect` holds an error message when connecting raises, `spotResults` is
the outcome of `check_spot_requests` (one entry per request id; only
consulted when there are requested instances), `finds` the outcome of
`find`.  Errors in the two boto calls are the messages classified by
`classifyBotoError`. -/
structure RegionCalls where
  connect : Option String
  spotResults : Except String (List SpotResult)
  finds : Except String (List BotoInstance)

/-- The mutable state of one run of `_update_pool_instances`. -/
structure UpdSt where
  store : List Instance
  entries : List PoolStatusEntry
  actions : List Action
  byIds : List (String × Nat)
  idsByRegion : List (String × List String)
  instancesLeft : List Nat
  created : Bool

/-- Processing of one `check_spot_requests` outcome (tasks.py lines
520-581).  A fulfilled request rewrites the row in place (new ec2 id,
hostname, stripped state code), updates the local maps and tags the
instance; a cancelled or closed request blacklists (zone, launch type) and
deletes the row; a failed request records a critical unclassified entry and
deletes the row; open/active and `None` outcomes leave everything alone. -/
def processSpotResult (p : Nat) (region reqId : String) (res : SpotResult) (st : UpdSt) :
    Except PyErr UpdSt :=
  match res with
  | .fulfilled instId hostname stateCode =>
    match assocGet st.byIds reqId with
    | none => .error .keyError
    | some pk =>
      .ok { st with
        store := storeUpdate st.store pk (fun i =>
          { i with hostname := hostname, ec2_instance_id := instId,
                   status_code := stateCode % 256 }),
        byIds := assocSet (assocErase st.byIds reqId) instId pk,
        idsByRegion := regionAppend st.idsByRegion region instId,
        actions := st.actions ++ [.addUpdatableTag instId],
        created := true }
  | .request state statusCode launchType =>
    if state = "cancelled" ∨ state = "closed" then
      match assocGet st.byIds reqId with
      | none => .error .keyError
      | some pk =>
        match storeFind st.store pk with
        | none => .error .keyError
        | some inst =>
          .ok { st with
            store := storeDelete st.store pk,
            actions := st.actions ++ [.blacklistWrite inst.ec2_zone launchType] }
    else if state = "open" ∨ state = "active" then
      .ok st
    else
      match assocGet st.byIds reqId with
      | none => .error .keyError
      | some pk =>
        .ok { st with
          entries := st.entries ++ [⟨p, StatusKind.unclassified, true,
            "Request " ++ reqId ++ " is " ++ statusCode ++ " and " ++ state ++ "."⟩],
          store := storeDelete st.store pk }
  | .stillOpen => .ok st
  | .other => .ok st

/-- The loop over `zip(requested, boto_results)`. -/
def processSpotList (p : Nat) (region : String)
    (l : List (String × SpotResult)) (st : UpdSt) : Except PyErr UpdSt :=
  match l with
  | [] => .ok st
  | (reqId, res) :: rest =>
    match processSpotResult p region reqId res st with
    | .error e => .error e
    | .ok st' => processSpotList p region rest st'
termination_by structural l

/-- Decimal digit value of a character. -/
def digitVal (c : Char) : Option Nat :=
  let n := c.toNat
  if 48 ≤ n ∧ n ≤ 57 then some (n - 48) else none

/-- Digit-string accumulator for `pyInt`; `none` until a digit was seen. -/
def parseNatDigits : List Char → Option Nat → Option Nat
  | [], acc => acc
  | c :: rest, acc =>
    match digitVal c with
    | none => none
    | some d => parseNatDigits rest (some (acc.getD 0 * 10 + d))

/-- The Python builtin `int` on a string: an optional minus sign followed by
at least one digit; `none` models the ValueError. -/
def pyInt (s : String) : Option Int :=
  match s.toList with
  | '-' :: rest => (parseNatDigits rest none).map (fun n => -(n : Int))
  | l => (parseNatDigits l none).map (fun n => (n : Int))

/-- The updatable gate of tasks.py lines 593-594: the instance is skipped
when the `SpotManager-Updatable` tag is absent or parses to a
non-positive integer (`int` raises ValueError on junk). -/
def updatableGate (b : BotoInstance) : Except PyErr Bool :=
  match (b.tags.find? (fun e => e.1 = SPOTMGR_TAG ++ "-Updatable")).map (fun e => e.2) with
  | none => .ok true
  | some v =>
    match pyInt v with
    | none => .error .valueError
    | some n => .ok (decide (n ≤ 0))

/-- Processing of one instance returned by `find` (tasks.py lines 585-645):
a non-updatable instance only shields its row from the reaper (Python
`list.remove`, which raises when the row is not in `instances_left`); an
updatable instance unknown to the region either was reloaded from the
database (a race), is already shutting down or terminated, or is fatal
(`assert False`); a known instance is shielded and its status code and
missing hostname are saved from the provider view. -/
def processBotoInstance (p : Nat) (region : String) (b : BotoInstance) (st : UpdSt) :
    Except PyErr UpdSt :=
  let state_code := b.state_code % 256
  match updatableGate b with
  | .error e => .error e
  | .ok skip =>
    if skip then
      if (regionIds st.idsByRegion region).contains b.id then
        match assocGet st.byIds b.id with
        | none => .error .keyError
        | some pk =>
          match removeFirst st.instancesLeft pk with
          | .error e => .error e
          | .ok left => .ok { st with instancesLeft := left }
      else .ok st
    else if (regionIds st.idsByRegion region).contains b.id then
      match assocGet st.byIds b.id with
      | none => .error .keyError
      | some pk =>
        match storeFind st.store pk with
        | none => .error .keyError
        | some inst =>
          let left := if st.instancesLeft.contains pk then st.instancesLeft.erase pk
            else st.instancesLeft
          let store1 := if inst.status_code ≠ state_code then
              storeUpdate st.store pk (fun i => { i with status_code := state_code })
            else st.store
          let store2 := if inst.hostname = "" then
              storeUpdate store1 pk (fun i => { i with hostname := b.public_dns_name })
            else store1
          .ok { st with store := store2, instancesLeft := left }
    else
      if state_code ≠ INSTANCE_STATE "shutting-down" ∧
          state_code ≠ INSTANCE_STATE "terminated" then
        if (st.store.filter (fun i => decide (i.ec2_instance_id = b.id))).isEmpty then
          .error .assertionError
        else .ok st
      else .ok st

/-- The loop over the instances returned by `find`. -/
def processFinds (p : Nat) (region : String) (l : List BotoInstance) (st : UpdSt) :
    Except PyErr UpdSt :=
  match l with
  | [] => .ok st
  | b :: rest =>
    match processBotoInstance p region b st with
    | .error e => .error e
    | .ok st' => processFinds p region rest st'
termination_by structural l

/-- The request ids of the region whose rows are still `requested`
(tasks.py lines 512-515). -/
def requestedIds (st : UpdSt) (region : String) : List String :=
  (regionIds st.idsByRegion region).filter (fun rid =>
    match assocGet st.byIds rid with
    | some pk =>
      match storeFind st.store pk with
      | some inst => decide (inst.status_code = INSTANCE_STATE "requested")
      | none => false
    | none => false)

/-- The spot-request phase of one region (tasks.py lines 511-581):
`check_spot_requests` is only called when there are requested rows; a boto
failure is classified and aborts the whole update (flag false). -/
def spotPhase (p : Nat) (prov : String → RegionCalls) (region : String) (st : UpdSt) :
    Except PyErr (UpdSt × Bool) :=
  if (requestedIds st region).isEmpty then .ok (st, true)
  else
    match (prov region).spotResults with
    | .error msg => .ok ({ st with entries := classifyBotoError st.entries p msg }, false)
    | .ok results =>
      match processSpotList p region ((requestedIds st region).zip results) st with
      | .error e => .error e
      | .ok st1 => .ok (st1, true)

/-- The find phase of one region (tasks.py lines 583-645): enumerate the
provider view; a boto failure is classified and aborts the whole update. -/
def findPhase (p : Nat) (prov : String → RegionCalls) (region : String) (st : UpdSt) :
    Except PyErr (UpdSt × Bool) :=
  match (prov region).finds with
  | .error msg => .ok ({ st with entries := classifyBotoError st.entries p msg }, false)
  | .ok finds =>
    match processFinds p region finds st with
    | .error e => .error e
    | .ok st2 => .ok (st2, true)

/-- The body of the per-region loop of `_update_pool_instances` (tasks.py
lines 493-674).  The returned flag is false when the source hits one of its
`return` statements (connect failure or a classified boto error), which
aborts the whole function without reaping or cleanup. -/
def processRegion (p : Nat) (prov : String → RegionCalls) (region : String) (st : UpdSt) :
    Except PyErr (UpdSt × Bool) :=
  match (prov region).connect with
  | some msg =>
    .ok ({ st with entries := st.entries ++ [⟨p, StatusKind.unclassified, true, msg⟩] }, false)
  | none =>
    match spotPhase p prov region st with
    | .error e => .error e
    | .ok (st1, false) => .ok (st1, false)
    | .ok (st1, true) => findPhase p prov region st1

/-- The region loop; a false flag from one region aborts the rest. -/
def processRegions (p : Nat) (prov : String → RegionCalls) (l : List String) (st : UpdSt) :
    Except PyErr (UpdSt × Bool) :=
  match l with
  | [] => .ok (st, true)
  | r :: rest =>
    match processRegion p prov r st with
    | .error e => .error e
    | .ok (st', cont) =>
      if cont then processRegions p prov rest st' else .ok (st', false)
termination_by structural l

/-- Result of one run of `_update_pool_instances`.  `created` is the
`instances_created` flag, `completed` records whether the run reached the
reap-and-cleanup phase (false whenever a `return` fired inside the region
loop). -/
structure UpdResult where
  store : List Instance
  entries : List PoolStatusEntry
  actions : List Action
  created : Bool
  completed : Bool
  deriving DecidableEq, Repr

/-- The embedding of `_update_pool_instances` (tasks.py lines 470-707).  The
store is assumed to hold distinct ec2 ids per pool (as any consistent store
does), so the `instances_by_ids` dict enumerates exactly the pool rows; the
write of the pool-id tag into `config.ec2_tags` (line 491) only feeds the
provider request payload and is not observable here.  The reap deletes
every row still in `instances_left`; the cleanup deletes the
max-spot-instance-count-exceeded and temporary-failure entries of the pool
only when a spot request was fulfilled in this run, and never touches other
entry types. -/
def update_pool_instances (pool : Pool) (prov : String → RegionCalls)
    (store : List Instance) (entries : List PoolStatusEntry) : Except PyErr UpdResult :=
  let insts := store.filter (fun i => decide (i.pool = pool.id))
  let idsByRegion := get_instance_ids_by_region insts
  let byIds := get_instances_by_ids insts
  let left := (insts.filter (fun i =>
    decide (¬ i.status_code = INSTANCE_STATE "requested"))).map (fun i => i.id)
  let st0 : UpdSt := ⟨store, entries, [], byIds, idsByRegion, left, false⟩
  let regions := idsByRegion.map (fun e => e.1)
  match processRegions pool.id prov regions st0 with
  | .error e => .error e
  | .ok (st, false) => .ok ⟨st.store, st.entries, st.actions, st.created, false⟩
  | .ok (st, true) =>
    let store' := st.store.filter (fun i => decide (¬ i.id ∈ st.instancesLeft))
    let entries' :=
      if st.created then
        st.entries.filter (fun e => decide (¬ (e.pool = pool.id ∧
          (e.type = StatusKind.maxSpotExceeded ∨ e.type = StatusKind.temporaryFailure))))
      else st.entries
    .ok ⟨store', entries', st.actions, st.created, true⟩

/-- Provider behavior for `_terminate_pool_instances`: a per-region connect
error message, and a per-region boto failure of the find/terminate calls. -/
structure TerminateProv where
  connect : String → Option String
  botoFail : String → Option String

/-- The per-region loop of `_terminate_pool_instances`: a connect failure
records a critical unclassified entry and aborts the whole call (`return
None`); a boto failure aborts it silently (`return 1`); otherwise the region
termination is issued (by pool tag when `terminateByPool`, else by the id
list). -/
def terminateRegions (p : Nat) (prov : TerminateProv) (terminateByPool : Bool)
    (l : List (String × List String)) (entries : List PoolStatusEntry)
    (actions : List Action) : List PoolStatusEntry × List Action :=
  match l with
  | [] => (entries, actions)
  | (r, ids) :: rest =>
    match prov.connect r with
    | some msg => (entries ++ [⟨p, StatusKind.unclassified, true, msg⟩], actions)
    | none =>
      match prov.botoFail r with
      | some _ => (entries, actions)
      | none =>
        terminateRegions p prov terminateByPool rest entries
          (actions ++ [.terminateRegion r terminateByPool ids])
termination_by structural l

/-- The embedding of `_terminate_pool_instances` (tasks.py lines 404-449).
It never touches the store; the data-consistency check of the by-pool branch
only logs.  The `terminateCall` action marks the invocation itself. -/
def terminate_pool_instances (pool : Pool) (prov : TerminateProv) (insts : List Instance)
    (entries : List PoolStatusEntry) (terminateByPool : Bool) :
    List PoolStatusEntry × List Action :=
  terminateRegions pool.id prov terminateByPool (get_instance_ids_by_region insts) entries
    [.terminateCall terminateByPool (insts.map (fun i => i.ec2_instance_id))]

/-- Outcome of the connect-and-resolve-AMI block of `_start_pool_instances`
(tasks.py lines 317-354): success, an `ssl.SSLError` (temporary failure), or
any other exception (critical unclassified). -/
inductive ConnectOutcome where
  | ok
  | sslError (msg : String)
  | otherError (msg : String)
  deriving DecidableEq, Repr

/-- Provider behavior for `_start_pool_instances`: whether the userdata
compiles, the connect/AMI outcome, and the result of
`create_spot_requests` (an error message or the returned request ids). -/
structure StartProv where
  userdataOk : Bool
  connect : ConnectOutcome
  spot : Except String (List String)

/-- Result of `_start_pool_instances`.  The ghost field `issued` records the
chosen (region, zone, type), the per-instance core count and the requested
instance count when spot requests were issued. -/
structure StartResult where
  store : List Instance
  entries : List PoolStatusEntry
  actions : List Action
  issued : Option (String × String × String × Nat × Nat)
  deriving DecidableEq, Repr

/-- The instance-type filtering of `_start_pool_instances` (tasks.py lines
220-235): collect the types whose core count is at most `count`, and track
the set of smallest types as fallback. -/
def acceptableFold (count : Int) (l : List String)
    (acc : List String × Option Nat × List String) :
    Except PyErr (List String × Option Nat × List String) :=
  match l with
  | [] => .ok acc
  | t :: rest =>
    match lookupCores t with
    | none => .error .keyError
    | some sz =>
      let (smallest, smallest_size, acceptable) := acc
      let acceptable' := if (sz : Int) ≤ count then acceptable ++ [t] else acceptable
      let (smallest', ssize') :=
        if smallest.isEmpty || (match smallest_size with
            | some s => decide (sz < s)
            | none => true) then ([t], some sz)
        else if smallest_size = some sz then (smallest ++ [t], smallest_size)
        else (smallest, smallest_size)
      acceptableFold count rest (smallest', ssize', acceptable')
termination_by structural l

/-- The price-too-low message of tasks.py lines 279-281: the header plus one
line per rejected zone with its recorded price. -/
def priceTooLowMsg (rej : List (String × Rat)) : String :=
  "No allowed region was cheap enough to spawn instances." ++
    String.join (rej.map (fun e => "\n" ++ e.1 ++ " at " ++ toString e.2))

/-- The embedding of `_start_pool_instances` (tasks.py lines 212-401).  As
in the source, the cores-to-instances conversion `count = max(1, count //
CORES_PER_INSTANCE[instance_type])` (line 268) runs before the `if not
region` check (line 272), so when the selector found no region the lookup
with `instance_type = None` raises KeyError and the price-too-low branch is
unreachable.  The userdata-compile failure path (lines 300-310) raises
RuntimeError through the re-raising outer handler; the config-error entry it
saves just before raising is not tracked by this embedding, which only
models that the call is fatal.  The boot-image assembly
(`_create_laniakea_images`) and the AMI cache feed the request payload only
and are not observable here. -/
def start_pool_instances (pool : Pool) (cfg : PoolConfig) (cache : PriceCache)
    (prov : StartProv) (store : List Instance) (entries : List PoolStatusEntry)
    (count : Int) (freshPk : Nat) (now : Nat) : Except PyErr StartResult :=
  match acceptableFold count cfg.ec2_instance_types ([], none, []) with
  | .error e => .error e
  | .ok (smallest, _, acceptable) =>
    let cfg' := { cfg with
      ec2_instance_types := if acceptable.isEmpty then smallest else acceptable }
    match get_best_region_zone cfg' cache with
    | .error e => .error e
    | .ok best =>
      match best.ty with
      | none => .error .keyError
      | some t =>
        match lookupCores t with
        | none => .error .keyError
        | some cores =>
          let count' := (max 1 (count / (cores : Int))).toNat
          let priceLow := entries.filter (fun e =>
            decide (e.pool = pool.id ∧ e.type = StatusKind.priceTooLow))
          match best.region, best.zone with
          | some region, some zone =>
            let entries1 :=
              if priceLow.isEmpty then entries
              else entries.filter (fun e =>
                decide (¬ (e.pool = pool.id ∧ e.type = StatusKind.priceTooLow)))
            if prov.userdataOk = false then .error .runtimeError
            else
              match prov.connect with
              | .sslError msg =>
                .ok ⟨store, entries1 ++ [⟨pool.id, StatusKind.temporaryFailure, false,
                  "Temporary failure occurred: " ++ msg⟩], [], none⟩
              | .otherError msg =>
                .ok ⟨store, entries1 ++ [⟨pool.id, StatusKind.unclassified, true, msg⟩],
                  [], none⟩
              | .ok =>
                match prov.spot with
                | .error msg => .ok ⟨store, classifyBotoError entries1 pool.id msg, [], none⟩
                | .ok reqIds =>
                  let rows := reqIds.mapIdx (fun idx rid =>
                    (⟨freshPk + idx, pool.id, rid, region, zone, "",
                      INSTANCE_STATE "requested", cores, now⟩ : Instance))
                  .ok ⟨store ++ rows, entries1,
                    [.spotRequest region zone t count' (pyMul cfg.ec2_max_price (cores : Rat))],
                    some (region, zone, t, cores, count')⟩
          | _, _ =>
            if priceLow.isEmpty then
              .ok ⟨store, entries ++ [⟨pool.id, StatusKind.priceTooLow, false,
                priceTooLowMsg best.rejected⟩], [], none⟩
            else .ok ⟨store, entries, [], none⟩

/-- One reconciliation tick's inputs: the pool row, its flattened
configuration, the `isCyclic() or getMissingParameters()` gate, the stores,
the wall clock, and the provider and cache behaviors for the three
provider-facing calls. -/
structure TickInput where
  pool : Pool
  config : PoolConfig
  configBroken : Bool
  store : List Instance
  entries : List PoolStatusEntry
  now : Nat
  updProv : String → RegionCalls
  termProv : TerminateProv
  startProv : StartProv
  cache : PriceCache
  freshPk : Nat

/-- The observable result of one tick. -/
structure TickResult where
  pool : Pool
  store : List Instance
  entries : List PoolStatusEntry
  actions : List Action
  deriving DecidableEq, Repr

/-- The cycle condition of tasks.py lines 104-105: `last_cycled` unset or
older than `cycle_interval` seconds. -/
def needsCycle (pool : Pool) (cfg : PoolConfig) (now : Nat) : Bool :=
  match pool.last_cycled with
  | none => true
  | some t => decide ((t : Int) < (now : Int) - (cfg.cycle_interval : Int))

/-- The embedding of `check_instance_pool` (tasks.py lines 27-139).  The
inter-process pool lock is out of scope (a single reconciler is modelled).
A frozen pool (critical entry) returns before anything else; a broken
configuration records a critical config-error and returns; then
update-from-provider, the counting loop, the disabled drain, the cycle
branch - which does NOT return, mirroring the source - and the scale
phase. -/
def check_instance_pool (inp : TickInput) : Except PyErr TickResult :=
  if (inp.entries.filter (fun e =>
      decide (e.pool = inp.pool.id ∧ e.isCritical = true))).isEmpty = false then
    .ok ⟨inp.pool, inp.store, inp.entries, []⟩
  else if inp.configBroken then
    .ok ⟨inp.pool, inp.store,
      inp.entries ++ [⟨inp.pool.id, StatusKind.configError, true, "Configuration error."⟩], []⟩
  else
    match update_pool_instances inp.pool inp.updProv inp.store inp.entries with
    | .error e => .error e
    | .ok u =>
      let c := countCapacity inp.pool.id (inp.config.size : Int) u.store
      if inp.pool.isEnabled = false then
        if c.running.isEmpty then .ok ⟨inp.pool, c.store, u.entries, u.actions⟩
        else
          let ter := terminate_pool_instances inp.pool inp.termProv c.running u.entries true
          .ok ⟨inp.pool, c.store, ter.1, u.actions ++ ter.2⟩
      else
        let pool1 := if needsCycle inp.pool inp.config inp.now then
            { inp.pool with last_cycled := some inp.now }
          else inp.pool
        let ter :=
          if needsCycle inp.pool inp.config inp.now then
            terminate_pool_instances inp.pool inp.termProv c.running u.entries true
          else (u.entries, [])
        if c.missing > 0 then
          match start_pool_instances pool1 inp.config inp.cache inp.startProv c.store ter.1
            c.missing inp.freshPk inp.now with
          | .error e => .error e
          | .ok s =>
            .ok ⟨pool1, s.store, s.entries, u.actions ++ ter.2 ++ [.startPool c.missing] ++
              s.actions⟩
        else if c.missing < 0 then
          let sel := scaleDownSelect c.missing
            (sortByCreated (c.store.filter (fun i => decide (i.pool = inp.pool.id))))
          if sel.isEmpty then .ok ⟨pool1, c.store, ter.1, u.actions ++ ter.2⟩
          else
            let ter4 := terminate_pool_instances inp.pool inp.termProv sel ter.1 false
            .ok ⟨pool1, c.store, ter4.1, u.actions ++ ter.2 ++ ter4.2⟩
        else .ok ⟨pool1, c.store, ter.1, u.actions ++ ter.2⟩

/-- After the counting loop, the remaining deficit is the initial one minus
the total size of the pool rows still in the store: every surviving pool row
was counted. -/
theorem countCapacity_missing_eq (p : Nat) (missing : Int) (insts : List Instance) :
    (countCapacity p missing insts).missing =
      missing - poolCoreSum p (countCapacity p missing insts).store := by
  induction insts generalizing missing with
  | nil => simp [countCapacity, poolCoreSum, sumSizes]
  | cons j rest ih =>
    simp only [countCapacity]
    by_cases hjp : j.pool ≠ p
    · rw [if_pos hjp]
      dsimp only
      simp only [poolCoreSum, sumSizes, List.filter_cons]
      rw [if_neg (by simpa using hjp)]
      exact ih missing
    · rw [if_neg hjp]
      have hp : j.pool = p := not_not.mp hjp
      by_cases hrun : (if j.status_code ≥ 256 then j.status_code - 256 else j.status_code) =
            INSTANCE_STATE "running" ∨
          (if j.status_code ≥ 256 then j.status_code - 256 else j.status_code) =
            INSTANCE_STATE "pending" ∨
          (if j.status_code ≥ 256 then j.status_code - 256 else j.status_code) =
            INSTANCE_STATE "requested"
      · rw [if_pos hrun]
        dsimp only
        simp only [poolCoreSum, sumSizes, List.filter_cons]
        rw [if_pos (by simp [hp])]
        have h2 := ih (missing - (j.size : Int))
        simp only [poolCoreSum, sumSizes] at h2
        simp only [List.map_cons, List.sum_cons]
        omega
      · rw [if_neg hrun]
        by_cases hdel : (if j.status_code ≥ 256 then j.status_code - 256 else j.status_code) =
              INSTANCE_STATE "shutting-down" ∨
            (if j.status_code ≥ 256 then j.status_code - 256 else j.status_code) =
              INSTANCE_STATE "terminated"
        · rw [if_pos hdel]
          dsimp only
          exact ih missing
        · rw [if_neg hdel]
          dsimp only
          simp only [poolCoreSum, sumSizes, List.filter_cons]
          rw [if_pos (by simp [hp])]
          have h2 := ih (missing - (j.size : Int))
          simp only [poolCoreSum, sumSizes] at h2
          simp only [List.map_cons, List.sum_cons]
          omega

/-- C7 (amended): it is the capacity-counting step of `check_instance_pool`,
run directly after `update_pool_instances`, that removes shutting-down and
terminated rows: after the counting loop no surviving row of the pool has a
stripped (low-byte) status code of 32 or 48.  (`update_pool_instances` itself
can leave such rows in the store; see the counterexample.) -/
theorem c7_no_terminated_after_counting (p : Nat) (missing : Int) (insts : List Instance) :
    ∀ i ∈ (countCapacity p missing insts).store, i.pool = p →
      i.status_code % 256 ≠ INSTANCE_STATE "shutting-down" ∧
      i.status_code % 256 ≠ INSTANCE_STATE "terminated" := by
  induction insts generalizing missing with
  | nil =>
    intro i hi
    simp [countCapacity] at hi
  | cons j rest ih =>
    simp only [countCapacity]
    by_cases hjp : j.pool ≠ p
    · rw [if_pos hjp]
      intro i hi hip
      rcases List.mem_cons.mp hi with rfl | hi'
      · exact absurd hip hjp
      · exact ih missing i hi' hip
    · rw [if_neg hjp]
      by_cases hrun : (if j.status_code ≥ 256 then j.status_code - 256 else j.status_code) =
            INSTANCE_STATE "running" ∨
          (if j.status_code ≥ 256 then j.status_code - 256 else j.status_code) =
            INSTANCE_STATE "pending" ∨
          (if j.status_code ≥ 256 then j.status_code - 256 else j.status_code) =
            INSTANCE_STATE "requested"
      · rw [if_pos hrun]
        intro i hi hip
        rcases List.mem_cons.mp hi with rfl | hi'
        · simp only [INSTANCE_STATE_running, INSTANCE_STATE_pending,
            INSTANCE_STATE_requested] at hrun
          simp only [INSTANCE_STATE_shutting_down, INSTANCE_STATE_terminated]
          by_cases hge : i.status_code ≥ 256
          · rw [if_pos hge] at hrun
            omega
          · rw [if_neg hge] at hrun
            omega
        · exact ih _ i hi' hip
      · rw [if_neg hrun]
        by_cases hdel : (if j.status_code ≥ 256 then j.status_code - 256 else j.status_code) =
              INSTANCE_STATE "shutting-down" ∨
            (if j.status_code ≥ 256 then j.status_code - 256 else j.status_code) =
              INSTANCE_STATE "terminated"
        · rw [if_pos hdel]
          intro i hi hip
          exact ih missing i hi hip
        · rw [if_neg hdel]
          intro i hi hip
          rcases List.mem_cons.mp hi with rfl | hi'
          · simp [INSTANCE_STATE_shutting_down, INSTANCE_STATE_terminated]
          · exact ih _ i hi' hip

/-- C7 witness: a pool row observed as terminated (status 48) is removed by
the counting step. -/
theorem c7_no_terminated_after_counting_witness :
    countCapacity 1 4 [⟨1, 1, "i-1", "r", "z", "h", 48, 4, 1⟩] = ⟨[], [], 4⟩ ∧
    ((⟨1, 1, "i-1", "r", "z", "h", 48, 4, 1⟩ : Instance) ∈
        (countCapacity 1 4 [⟨1, 1, "i-1", "r", "z", "h", 48, 4, 1⟩]).store →
      (⟨1, 1, "i-1", "r", "z", "h", 48, 4, 1⟩ : Instance).pool = 1 →
      (⟨1, 1, "i-1", "r", "z", "h", 48, 4, 1⟩ : Instance).status_code % 256 ≠
          INSTANCE_STATE "shutting-down" ∧
        (⟨1, 1, "i-1", "r", "z", "h", 48, 4, 1⟩ : Instance).status_code % 256 ≠
          INSTANCE_STATE "terminated") :=
  ⟨by decide,
    c7_no_terminated_after_counting 1 4 [⟨1, 1, "i-1", "r", "z", "h", 48, 4, 1⟩] _⟩

/-- A running 2-core instance of pool 1. -/
def exInst : Instance := ⟨1, 1, "i-1", "us-east-1", "us-east-1a", "h", 16, 2, 1⟩

/-- Pool 1, enabled, never cycled. -/
def exPool : Pool := ⟨1, true, none⟩

/-- A configuration wanting 4 cores of c4.large (2 cores each). -/
def cfgA : PoolConfig := ⟨4, 3600, ["us-east-1"], ["c4.large"], mkRat 1 10⟩

/-- Cache with one cheap c4.large sample in us-east-1a. -/
def cacheA : PriceCache :=
  ⟨fun t =>
    if t = "c4.large" then some [("us-east-1", [("us-east-1a", [mkRat 3 100])])] else none,
   fun _ _ => false⟩

/-- Provider view for update: the instance i-1 is reported terminated
(state 48), updatable. -/
def updProv48 : String → RegionCalls :=
  fun _ => ⟨none, .ok [], .ok [⟨"i-1", 48, [("SpotManager-Updatable", "1")], "h"⟩]⟩

/-- Provider view for update: i-1 unchanged (running, state 16). -/
def updProv16 : String → RegionCalls :=
  fun _ => ⟨none, .ok [], .ok [⟨"i-1", 16, [("SpotManager-Updatable", "1")], "h"⟩]⟩

/-- Provider view for update: `find` raises Service Unavailable. -/
def updProvSU : String → RegionCalls :=
  fun _ => ⟨none, .ok [], .error "Service Unavailable"⟩

/-- Terminations succeed everywhere. -/
def termProvOk : TerminateProv := ⟨fun _ => none, fun _ => none⟩

/-- Scale-up succeeds and returns one spot request id. -/
def startProvOk1 : StartProv := ⟨true, .ok, .ok ["sir-1"]⟩

/-- A pre-existing temporary-failure entry of pool 1. -/
def tempOld : PoolStatusEntry := ⟨1, StatusKind.temporaryFailure, false, "old"⟩

/-- A pre-existing max-spot-instance-count-exceeded entry of pool 1. -/
def maxOld : PoolStatusEntry := ⟨1, StatusKind.maxSpotExceeded, false, "old"⟩

/-- A critical unclassified entry of pool 1 (the pool is frozen). -/
def critOld : PoolStatusEntry := ⟨1, StatusKind.unclassified, true, "fatal earlier"⟩

/-- C3 (amended): a frozen pool (any critical status entry) returns at the
very top of the tick: no update-from-provider, no scale action, and the
store, the entries and the pool row are left untouched. -/
theorem c3_frozen_pool_skips_update (inp : TickInput)
    (h : (inp.entries.filter (fun e =>
      decide (e.pool = inp.pool.id ∧ e.isCritical = true))).isEmpty = false) :
    check_instance_pool inp = .ok ⟨inp.pool, inp.store, inp.entries, []⟩ := by
  unfold check_instance_pool
  rw [if_pos h]

/-- C3 witness: the amended theorem applied to a concrete frozen pool. -/
theorem c3_frozen_pool_skips_update_witness :
    ((([critOld] : List PoolStatusEntry).filter (fun e =>
      decide (e.pool = (1 : Nat) ∧ e.isCritical = true))).isEmpty = false) ∧
    check_instance_pool
        ⟨⟨1, true, some 100⟩, cfgA, false, [exInst], [critOld], 100, updProv48, termProvOk,
          startProvOk1, cacheA, 10⟩ =
      .ok ⟨⟨1, true, some 100⟩, [exInst], [critOld], []⟩ :=
  ⟨by decide,
    c3_frozen_pool_skips_update
      ⟨⟨1, true, some 100⟩, cfgA, false, [exInst], [critOld], 100, updProv48, termProvOk,
        startProvOk1, cacheA, 10⟩ (by decide)⟩

/-- C3 counterexample: on a frozen pool whose instance the provider reports
as terminated, the tick leaves the stored status at 16 - the refresh the
claim asserts would have saved status 48, as running
`_update_pool_instances` on the same inputs shows. -/
theorem c3_frozen_pool_counterexample :
    check_instance_pool
        ⟨⟨1, true, some 100⟩, cfgA, false, [exInst], [critOld], 100, updProv48, termProvOk,
          startProvOk1, cacheA, 10⟩ =
      .ok ⟨⟨1, true, some 100⟩, [exInst], [critOld], []⟩ ∧
    update_pool_instances ⟨1, true, some 100⟩ updProv48 [exInst] [critOld] =
      .ok ⟨[⟨1, 1, "i-1", "us-east-1", "us-east-1a", "h", 48, 2, 1⟩], [critOld], [], false,
        true⟩ ∧
    (⟨1, 1, "i-1", "us-east-1", "us-east-1a", "h", 48, 2, 1⟩ : Instance) ≠ exInst := by
  refine ⟨by decide, by decide, by decide⟩

/-- C7 counterexample: `_update_pool_instances` completes without error yet
leaves a row whose stripped status code is 48 (terminated) in the store;
the deletion only happens later, in the counting step of
`check_instance_pool`. -/
theorem c7_update_leaves_terminated_counterexample :
    update_pool_instances exPool updProv48 [exInst] [] =
      .ok ⟨[⟨1, 1, "i-1", "us-east-1", "us-east-1a", "h", 48, 2, 1⟩], [], [], false, true⟩ ∧
    (48 : Nat) % 256 = INSTANCE_STATE "terminated" := by
  refine ⟨by decide, by decide⟩

/-- C4 counterexample: a run of `_update_pool_instances` that hits a
Service Unavailable failure while the pool already holds a
temporary-failure entry ends with two temporary-failure entries: creation
of that type is not suppressed. -/
theorem c4_temporary_failure_not_deduplicated_counterexample :
    update_pool_instances exPool updProvSU [exInst] [tempOld] =
      .ok ⟨[exInst],
        [tempOld, ⟨1, StatusKind.temporaryFailure, false,
          "Temporary failure occurred: Service Unavailable"⟩], [], false, false⟩ ∧
    ((([tempOld, ⟨1, StatusKind.temporaryFailure, false,
        "Temporary failure occurred: Service Unavailable"⟩] : List PoolStatusEntry).filter
      (fun e => decide (e.pool = 1 ∧ e.type = StatusKind.temporaryFailure))).length = 2) := by
  refine ⟨by decide, by decide⟩

/-- C4 (amended): in the shared boto-error classification,
max-spot-instance-count-exceeded entries are deduplicated (none is added
when the pool already has one), while temporary-failure entries are created
unconditionally (price-too-low creation sits in the unreachable no-region
branch of `_start_pool_instances`; see C2). -/
theorem c4_status_entry_dedup_amended (entries : List PoolStatusEntry) (p : Nat)
    (msg : String)
    (hmax : (entries.filter (fun e =>
      decide (e.pool = p ∧ e.type = StatusKind.maxSpotExceeded))).isEmpty = false) :
    (classifyBotoError entries p msg).filter (fun e =>
        decide (e.pool = p ∧ e.type = StatusKind.maxSpotExceeded)) =
      entries.filter (fun e => decide (e.pool = p ∧ e.type = StatusKind.maxSpotExceeded)) ∧
    (containsSubstr msg "MaxSpotInstanceCountExceeded" = false →
      containsSubstr msg "Service Unavailable" = true →
      (classifyBotoError entries p msg).filter (fun e =>
          decide (e.pool = p ∧ e.type = StatusKind.temporaryFailure)) =
        entries.filter (fun e => decide (e.pool = p ∧ e.type = StatusKind.temporaryFailure))
          ++ [⟨p, StatusKind.temporaryFailure, false,
            "Temporary failure occurred: " ++ msg⟩]) := by
  constructor
  · unfold classifyBotoError
    split_ifs with h1 h2 h3
    · rw [hmax] at h2
      cases h2
    · rfl
    · simp
    · simp
  · intro hm hs
    unfold classifyBotoError
    rw [if_neg (by simp [hm]), if_pos hs]
    simp

/-- C4 witness: the amended theorem at a pool that already holds a
max-spot entry, with a Service Unavailable message. -/
theorem c4_status_entry_dedup_amended_witness :
    ((([maxOld, tempOld] : List PoolStatusEntry).filter (fun e =>
      decide (e.pool = 1 ∧ e.type = StatusKind.maxSpotExceeded))).isEmpty = false) ∧
    ((classifyBotoError [maxOld, tempOld] 1 "Service Unavailable").filter (fun e =>
        decide (e.pool = 1 ∧ e.type = StatusKind.maxSpotExceeded)) =
      ([maxOld, tempOld] : List PoolStatusEntry).filter (fun e =>
        decide (e.pool = 1 ∧ e.type = StatusKind.maxSpotExceeded)) ∧
    (containsSubstr "Service Unavailable" "MaxSpotInstanceCountExceeded" = false →
      containsSubstr "Service Unavailable" "Service Unavailable" = true →
      (classifyBotoError [maxOld, tempOld] 1 "Service Unavailable").filter (fun e =>
          decide (e.pool = 1 ∧ e.type = StatusKind.temporaryFailure)) =
        ([maxOld, tempOld] : List PoolStatusEntry).filter (fun e =>
          decide (e.pool = 1 ∧ e.type = StatusKind.temporaryFailure))
          ++ [⟨1, StatusKind.temporaryFailure, false,
            "Temporary failure occurred: Service Unavailable"⟩])) :=
  ⟨by decide, c4_status_entry_dedup_amended [maxOld, tempOld] 1 "Service Unavailable"
    (by decide)⟩

/-- The configuration of the spec's scenario 2: the only cached price is too
expensive, so no region qualifies. -/
def c2cfg : PoolConfig := ⟨8, 3600, ["us-east-1"], ["c4.xlarge"], mkRat 1 10⟩

/-- Cache for scenario 2: c4.xlarge at 0.50/0.51 dollars (0.125 per core,
above the 0.10 ceiling), and no c4.large data. -/
def c2cache : PriceCache :=
  ⟨fun t =>
    if t = "c4.xlarge" then some [("us-east-1", [("us-east-1a", [mkRat 50 100, mkRat 51 100])])]
    else none,
   fun _ _ => false⟩

/-- C2 (code bug): when no region qualifies, `_start_pool_instances` raises
KeyError at `count = max(1, count // CORES_PER_INSTANCE[instance_type])`
(tasks.py line 268) - `instance_type` is `None` there - before ever reaching
the `if not region` branch, so no price-too-low entry is recorded and the
function does not return normally.  The selector itself rejects the zone at
0.125 per core as the spec expects. -/
theorem c2_price_too_low_unreachable :
    start_pool_instances exPool c2cfg c2cache startProvOk1 [] [] 8 10 100 =
      .error .keyError ∧
    get_best_region_zone { c2cfg with ec2_instance_types := ["c4.xlarge"] } c2cache =
      .ok ⟨none, none, none, [("us-east-1a", mkRat 125 1000)]⟩ := by
  refine ⟨by decide, by decide⟩

theorem classifyBotoError_mono (entries : List PoolStatusEntry) (p : Nat) (msg : String) :
    ∃ t, classifyBotoError entries p msg = entries ++ t := by
  unfold classifyBotoError
  split_ifs with h1 h2 h3
  · exact ⟨_, rfl⟩
  · exact ⟨[], (List.append_nil _).symm⟩
  · exact ⟨_, rfl⟩
  · exact ⟨_, rfl⟩

theorem processSpotResult_entries_mono (p : Nat) (region reqId : String) (res : SpotResult)
    (st st' : UpdSt) (h : processSpotResult p region reqId res st = .ok st') :
    ∃ t, st'.entries = st.entries ++ t := by
  cases res with
  | fulfilled instId hostname stateCode =>
    simp only [processSpotResult] at h
    cases hg : assocGet st.byIds reqId <;> simp only [hg] at h
    · exact absurd h (by simp)
    · injection h with h2
      subst h2
      exact ⟨[], (List.append_nil _).symm⟩
  | request state statusCode launchType =>
    simp only [processSpotResult] at h
    by_cases hc : state = "cancelled" ∨ state = "closed"
    · rw [if_pos hc] at h
      cases hg : assocGet st.byIds reqId <;> simp only [hg] at h
      · exact absurd h (by simp)
      · rename_i pk
        cases hf : storeFind st.store pk <;> simp only [hf] at h
        · exact absurd h (by simp)
        · injection h with h2
          subst h2
          exact ⟨[], (List.append_nil _).symm⟩
    · rw [if_neg hc] at h
      by_cases ho : state = "open" ∨ state = "active"
      · rw [if_pos ho] at h
        injection h with h2
        subst h2
        exact ⟨[], (List.append_nil _).symm⟩
      · rw [if_neg ho] at h
        cases hg : assocGet st.byIds reqId <;> simp only [hg] at h
        · exact absurd h (by simp)
        · injection h with h2
          subst h2
          exact ⟨_, rfl⟩
  | stillOpen =>
    simp only [processSpotResult] at h
    injection h with h2
    subst h2
    exact ⟨[], (List.append_nil _).symm⟩
  | other =>
    simp only [processSpotResult] at h
    injection h with h2
    subst h2
    exact ⟨[], (List.append_nil _).symm⟩

theorem processSpotList_entries_mono (p : Nat) (region : String)
    (l : List (String × SpotResult)) (st st' : UpdSt)
    (h : processSpotList p region l st = .ok st') :
    ∃ t, st'.entries = st.entries ++ t := by
  induction l generalizing st with
  | nil =>
    simp only [processSpotList] at h
    injection h with h2
    subst h2
    exact ⟨[], (List.append_nil _).symm⟩
  | cons e rest ih =>
    obtain ⟨reqId, res⟩ := e
    simp only [processSpotList] at h
    cases hr : processSpotResult p region reqId res st <;> simp only [hr] at h
    · exact absurd h (by simp)
    · rename_i st1
      obtain ⟨t1, ht1⟩ := processSpotResult_entries_mono p region reqId res st st1 hr
      obtain ⟨t2, ht2⟩ := ih st1 h
      exact ⟨t1 ++ t2, by rw [ht2, ht1, List.append_assoc]⟩

theorem processBotoInstance_entries_eq (p : Nat) (region : String) (b : BotoInstance)
    (st st' : UpdSt) (h : processBotoInstance p region b st = .ok st') :
    st'.entries = st.entries := by
  unfold processBotoInstance at h
  cases hg : updatableGate b <;> simp only [hg] at h
  · exact absurd h (by simp)
  · rename_i skip
    cases skip
    · simp only [Bool.false_eq_true, if_false] at h
      by_cases hin : (regionIds st.idsByRegion region).contains b.id
      · rw [if_pos hin] at h
        cases hga : assocGet st.byIds b.id <;> simp only [hga] at h
        · exact absurd h (by simp)
        · rename_i pk
          cases hf : storeFind st.store pk <;> simp only [hf] at h
          · exact absurd h (by simp)
          · injection h with h2
            subst h2
            rfl
      · rw [if_neg hin] at h
        by_cases hstate : b.state_code % 256 ≠ INSTANCE_STATE "shutting-down" ∧
            b.state_code % 256 ≠ INSTANCE_STATE "terminated"
        · rw [if_pos hstate] at h
          by_cases hq : (st.store.filter (fun i =>
              decide (i.ec2_instance_id = b.id))).isEmpty
          · rw [if_pos hq] at h
            exact absurd h (by simp)
          · rw [if_neg hq] at h
            injection h with h2
            subst h2
            rfl
        · rw [if_neg hstate] at h
          injection h with h2
          subst h2
          rfl
    · simp only [if_true] at h
      by_cases hin : (regionIds st.idsByRegion region).contains b.id
      · rw [if_pos hin] at h
        cases hga : assocGet st.byIds b.id <;> simp only [hga] at h
        · exact absurd h (by simp)
        · rename_i pk
          cases hrm : removeFirst st.instancesLeft pk <;> simp only [hrm] at h
          · exact absurd h (by simp)
          · injection h with h2
            subst h2
            rfl
      · rw [if_neg hin] at h
        injection h with h2
        subst h2
        rfl

theorem processFinds_entries_eq (p : Nat) (region : String) (l : List BotoInstance)
    (st st' : UpdSt) (h : processFinds p region l st = .ok st') :
    st'.entries = st.entries := by
  induction l generalizing st with
  | nil =>
    simp only [processFinds] at h
    injection h with h2
    subst h2
    rfl
  | cons b rest ih =>
    simp only [processFinds] at h
    cases hb : processBotoInstance p region b st <;> simp only [hb] at h
    · exact absurd h (by simp)
    · rename_i st1
      rw [ih st1 h, processBotoInstance_entries_eq p region b st st1 hb]

theorem spotPhase_entries_mono (p : Nat) (prov : String → RegionCalls) (region : String)
    (st st' : UpdSt) (cont : Bool) (h : spotPhase p prov region st = .ok (st', cont)) :
    ∃ t, st'.entries = st.entries ++ t := by
  unfold spotPhase at h
  by_cases hreq : (requestedIds st region).isEmpty
  · rw [if_pos hreq] at h
    injection h with h2
    injection h2 with h3 h4
    subst h3
    exact ⟨[], (List.append_nil _).symm⟩
  · rw [if_neg hreq] at h
    cases hs : (prov region).spotResults <;> simp only [hs] at h
    · injection h with h2
      injection h2 with h3 h4
      subst h3
      simpa using classifyBotoError_mono st.entries p _
    · rename_i results
      cases hl : processSpotList p region ((requestedIds st region).zip results) st <;>
        simp only [hl] at h
      · exact absurd h (by simp)
      · rename_i st1
        injection h with h2
        injection h2 with h3 h4
        subst h3
        exact processSpotList_entries_mono p region _ st st1 hl

theorem findPhase_entries_mono (p : Nat) (prov : String → RegionCalls) (region : String)
    (st st' : UpdSt) (cont : Bool) (h : findPhase p prov region st = .ok (st', cont)) :
    ∃ t, st'.entries = st.entries ++ t := by
  unfold findPhase at h
  cases hf : (prov region).finds <;> simp only [hf] at h
  · injection h with h2
    injection h2 with h3 h4
    subst h3
    simpa using classifyBotoError_mono st.entries p _
  · rename_i finds
    cases hp : processFinds p region finds st <;> simp only [hp] at h
    · exact absurd h (by simp)
    · rename_i st2
      injection h with h2
      injection h2 with h3 h4
      subst h3
      exact ⟨[], by rw [processFinds_entries_eq p region finds st st2 hp, List.append_nil]⟩

theorem processRegion_entries_mono (p : Nat) (prov : String → RegionCalls) (region : String)
    (st st' : UpdSt) (cont : Bool) (h : processRegion p prov region st = .ok (st', cont)) :
    ∃ t, st'.entries = st.entries ++ t := by
  unfold processRegion at h
  cases hc : (prov region).connect <;> simp only [hc] at h
  · cases hs : spotPhase p prov region st <;> simp only [hs] at h
    · exact absurd h (by simp)
    · rename_i pr
      obtain ⟨st1, flag⟩ := pr
      cases flag
      · simp only [Bool.false_eq_true, if_false] at h
        injection h with h2
        injection h2 with h3 h4
        subst h3
        exact spotPhase_entries_mono p prov region st st1 false hs
      · simp only [if_true] at h
        obtain ⟨t1, ht1⟩ := spotPhase_entries_mono p prov region st st1 true hs
        obtain ⟨t2, ht2⟩ := findPhase_entries_mono p prov region st1 st' cont h
        exact ⟨t1 ++ t2, by rw [ht2, ht1, List.append_assoc]⟩
  · injection h with h2
    injection h2 with h3 h4
    subst h3
    exact ⟨_, rfl⟩

theorem processRegions_entries_mono (p : Nat) (prov : String → RegionCalls)
    (l : List String) (st st' : UpdSt) (cont : Bool)
    (h : processRegions p prov l st = .ok (st', cont)) :
    ∃ t, st'.entries = st.entries ++ t := by
  induction l generalizing st with
  | nil =>
    simp only [processRegions] at h
    injection h with h2
    injection h2 with h3 h4
    subst h3
    exact ⟨[], (List.append_nil _).symm⟩
  | cons r rest ih =>
    simp only [processRegions] at h
    cases hr : processRegion p prov r st <;> simp only [hr] at h
    · exact absurd h (by simp)
    · rename_i pr
      obtain ⟨st1, flag⟩ := pr
      cases flag
      · simp only [Bool.false_eq_true, if_false] at h
        injection h with h2
        injection h2 with h3 h4
        subst h3
        exact processRegion_entries_mono p prov r st st1 false hr
      · simp only [if_true] at h
        obtain ⟨t1, ht1⟩ := processRegion_entries_mono p prov r st st1 true hr
        obtain ⟨t2, ht2⟩ := ih st1 h
        exact ⟨t1 ++ t2, by rw [ht2, ht1, List.append_assoc]⟩

/-- C9 (amended): entries are only ever appended during the region loop, so
(a) when at least one spot request was fulfilled AND the run completed its
region loop (no connect failure or classified boto error fired an early
`return`), the final cleanup leaves no max-spot-instance-count-exceeded or
temporary-failure entry of the pool; (b) unclassified entries present before
the run always survive it; (c) when no request was fulfilled, every
pre-existing entry survives (nothing is deleted). -/
theorem c9_cleanup_on_fulfillment_amended (pool : Pool) (prov : String → RegionCalls)
    (store : List Instance) (entries : List PoolStatusEntry) (u : UpdResult)
    (h : update_pool_instances pool prov store entries = .ok u) :
    (u.created = true → u.completed = true →
      ∀ e ∈ u.entries, e.pool = pool.id →
        e.type ≠ StatusKind.maxSpotExceeded ∧ e.type ≠ StatusKind.temporaryFailure) ∧
    (∀ e ∈ entries, e.type = StatusKind.unclassified → e ∈ u.entries) ∧
    (u.created = false → ∀ e ∈ entries, e ∈ u.entries) := by
  unfold update_pool_instances at h
  cases hr : processRegions pool.id prov
      ((get_instance_ids_by_region (store.filter (fun i => decide (i.pool = pool.id)))).map
        (fun e => e.1))
      ⟨store, entries, [],
        get_instances_by_ids (store.filter (fun i => decide (i.pool = pool.id))),
        get_instance_ids_by_region (store.filter (fun i => decide (i.pool = pool.id))),
        ((store.filter (fun i => decide (i.pool = pool.id))).filter (fun i =>
          decide (¬ i.status_code = INSTANCE_STATE "requested"))).map (fun i => i.id),
        false⟩ <;>
    simp only [hr] at h
  · exact absurd h (by simp)
  · rename_i pr
    obtain ⟨st, flag⟩ := pr
    obtain ⟨t, ht⟩ := processRegions_entries_mono _ prov _ _ st flag hr
    cases flag
    · simp only at h
      injection h with h2
      subst h2
      refine ⟨?_, ?_, ?_⟩
      · intro _ hcomp
        simp at hcomp
      · intro e he _
        simp only [ht]
        exact List.mem_append_left t he
      · intro _ e he
        simp only [ht]
        exact List.mem_append_left t he
    · simp only at h
      injection h with h2
      subst h2
      by_cases hcr : st.created
      · refine ⟨?_, ?_, ?_⟩
        · intro _ _ e he hep
          simp only [hcr, if_true, List.mem_filter] at he
          obtain ⟨_, hdec⟩ := he
          rw [decide_eq_true_eq] at hdec
          push_neg at hdec
          exact hdec hep
        · intro e he htype
          simp only [hcr, if_true, List.mem_filter]
          refine ⟨by simp only [ht]; exact List.mem_append_left t he, ?_⟩
          rw [decide_eq_true_eq]
          rintro ⟨_, hk | hk⟩ <;> rw [htype] at hk <;> cases hk
        · intro hcf
          simp only [hcr] at hcf
          exact absurd hcf (by decide)
      · refine ⟨?_, ?_, ?_⟩
        · intro hcf
          simp only [hcr] at hcf
          simp at hcf
        · intro e he _
          simp only [hcr, if_false]
          simp only [ht]
          exact List.mem_append_left t he
        · intro _ e he
          simp only [hcr, if_false]
          simp only [ht]
          exact List.mem_append_left t he

/-- C9 witness: a run that fulfills the one requested row and completes; the
pre-existing max-spot entry of the pool is cleared. -/
theorem c9_cleanup_on_fulfillment_amended_witness :
    update_pool_instances exPool
        (fun _ => ⟨none, .ok [.fulfilled "i-9" "host9" 16],
          .ok [⟨"i-9", 16, [("SpotManager-Updatable", "1")], "host9"⟩]⟩)
        [⟨2, 1, "sir-1", "us-east-1", "us-east-1a", "", 256, 2, 1⟩] [maxOld] =
      .ok ⟨[⟨2, 1, "i-9", "us-east-1", "us-east-1a", "host9", 16, 2, 1⟩], [],
        [.addUpdatableTag "i-9"], true, true⟩ ∧
    ((fun u =>
      (u.created = true → u.completed = true →
        ∀ e ∈ u.entries, e.pool = exPool.id →
          e.type ≠ StatusKind.maxSpotExceeded ∧ e.type ≠ StatusKind.temporaryFailure) ∧
      (∀ e ∈ ([maxOld] : List PoolStatusEntry), e.type = StatusKind.unclassified →
        e ∈ u.entries) ∧
      (u.created = false → ∀ e ∈ ([maxOld] : List PoolStatusEntry), e ∈ u.entries))
      (⟨[⟨2, 1, "i-9", "us-east-1", "us-east-1a", "host9", 16, 2, 1⟩], [],
        [.addUpdatableTag "i-9"], true, true⟩ : UpdResult)) := by
  have hu : update_pool_instances exPool
      (fun _ => ⟨none, .ok [.fulfilled "i-9" "host9" 16],
        .ok [⟨"i-9", 16, [("SpotManager-Updatable", "1")], "host9"⟩]⟩)
      [⟨2, 1, "sir-1", "us-east-1", "us-east-1a", "", 256, 2, 1⟩] [maxOld] =
      .ok ⟨[⟨2, 1, "i-9", "us-east-1", "us-east-1a", "host9", 16, 2, 1⟩], [],
        [.addUpdatableTag "i-9"], true, true⟩ := by decide
  exact ⟨hu, c9_cleanup_on_fulfillment_amended exPool _ _ [maxOld] _ hu⟩

/-- C9 counterexample: one region fulfills a request (so
`instances_created` is true), then `find` raises Service Unavailable: the
run returns early, the pre-existing max-spot-instance-count-exceeded entry
of the pool is NOT deleted, although the claim as stated requires it. -/
theorem c9_early_return_skips_cleanup_counterexample :
    update_pool_instances exPool
        (fun _ => ⟨none, .ok [.fulfilled "i-9" "host9" 16], .error "Service Unavailable"⟩)
        [⟨2, 1, "sir-1", "us-east-1", "us-east-1a", "", 256, 2, 1⟩] [maxOld] =
      .ok ⟨[⟨2, 1, "i-9", "us-east-1", "us-east-1a", "host9", 16, 2, 1⟩],
        [maxOld, ⟨1, StatusKind.temporaryFailure, false,
          "Temporary failure occurred: Service Unavailable"⟩],
        [.addUpdatableTag "i-9"], true, false⟩ ∧
    maxOld.type = StatusKind.maxSpotExceeded ∧ maxOld.pool = exPool.id := by
  refine ⟨by decide, by decide, by decide⟩

theorem terminateRegions_actions_mono (p : Nat) (prov : TerminateProv) (byPool : Bool)
    (l : List (String × List String)) (entries : List PoolStatusEntry)
    (actions : List Action) :
    ∃ t, (terminateRegions p prov byPool l entries actions).2 = actions ++ t := by
  induction l generalizing entries actions with
  | nil => exact ⟨[], (List.append_nil _).symm⟩
  | cons e rest ih =>
    obtain ⟨r, ids⟩ := e
    simp only [terminateRegions]
    cases hc : prov.connect r
    · cases hb : prov.botoFail r
      · obtain ⟨t, ht⟩ := ih entries (actions ++ [.terminateRegion r byPool ids])
        exact ⟨[.terminateRegion r byPool ids] ++ t, by rw [ht, List.append_assoc]⟩
      · exact ⟨[], (List.append_nil _).symm⟩
    · exact ⟨[], (List.append_nil _).symm⟩

/-- The invocation marker of `_terminate_pool_instances` is always in its
action trace. -/
theorem terminateCall_mem (pool : Pool) (prov : TerminateProv) (insts : List Instance)
    (entries : List PoolStatusEntry) (byPool : Bool) :
    Action.terminateCall byPool (insts.map (fun i => i.ec2_instance_id)) ∈
      (terminate_pool_instances pool prov insts entries byPool).2 := by
  unfold terminate_pool_instances
  obtain ⟨t, ht⟩ := terminateRegions_actions_mono pool.id prov byPool
    (get_instance_ids_by_region insts) entries
    [.terminateCall byPool (insts.map (fun i => i.ec2_instance_id))]
  rw [ht]
  exact List.mem_append_left _ (List.mem_singleton_self _)

/-- C1 (amended): a cycling tick (enabled, non-frozen pool, valid
configuration, `last_cycled` unset or stale) sets `last_cycled` to now and
calls `_terminate_pool_instances` with `terminateByPool = true` on the
running instances, but does NOT return: when `instance_cores_missing`
(counted before the termination, which does not change the store) is
positive, scale-up is invoked in that same tick. -/
theorem c1_cycle_continues_into_scale_up_amended (inp : TickInput) (r : TickResult)
    (u : UpdResult) (hok : check_instance_pool inp = .ok r)
    (hfroz : (inp.entries.filter (fun e =>
      decide (e.pool = inp.pool.id ∧ e.isCritical = true))).isEmpty = true)
    (hcfg : inp.configBroken = false)
    (hen : inp.pool.isEnabled = true)
    (hcyc : needsCycle inp.pool inp.config inp.now = true)
    (hupd : update_pool_instances inp.pool inp.updProv inp.store inp.entries = .ok u) :
    r.pool.last_cycled = some inp.now ∧
    Action.terminateCall true
      ((countCapacity inp.pool.id (inp.config.size : Int) u.store).running.map
        (fun i => i.ec2_instance_id)) ∈ r.actions ∧
    ((countCapacity inp.pool.id (inp.config.size : Int) u.store).missing > 0 →
      Action.startPool (countCapacity inp.pool.id (inp.config.size : Int) u.store).missing ∈
        r.actions) := by
  set c := countCapacity inp.pool.id (inp.config.size : Int) u.store with hc
  unfold check_instance_pool at hok
  have hnf : ¬ ((inp.entries.filter (fun e =>
      decide (e.pool = inp.pool.id ∧ e.isCritical = true))).isEmpty = false) := by
    rw [hfroz]
    decide
  rw [if_neg hnf] at hok
  rw [if_neg (show ¬ _ from by simp [hcfg])] at hok
  simp only [hupd, ← hc] at hok
  rw [if_neg (show ¬ (inp.pool.isEnabled = false) from by simp [hen])] at hok
  simp only [hcyc, if_true] at hok
  have hmem := terminateCall_mem inp.pool inp.termProv c.running u.entries true
  by_cases hm : c.missing > 0
  · rw [if_pos hm] at hok
    cases hs : start_pool_instances { inp.pool with last_cycled := some inp.now } inp.config
        inp.cache inp.startProv c.store
        (terminate_pool_instances inp.pool inp.termProv c.running u.entries true).1
        c.missing inp.freshPk inp.now <;> simp only [hs] at hok
    · exact absurd hok (by simp)
    · injection hok with h2
      subst h2
      refine ⟨rfl, ?_, fun _ => ?_⟩
      · exact List.mem_append_left _ (List.mem_append_left _ (List.mem_append_right _ hmem))
      · exact List.mem_append_left _
          (List.mem_append_right _ (List.mem_singleton_self _))
  · rw [if_neg hm] at hok
    by_cases hm2 : c.missing < 0
    · rw [if_pos hm2] at hok
      by_cases hsel : (scaleDownSelect c.missing
          (sortByCreated (c.store.filter (fun i => decide (i.pool = inp.pool.id))))).isEmpty
      · rw [if_pos hsel] at hok
        injection hok with h2
        subst h2
        exact ⟨rfl, List.mem_append_right _ hmem, fun hmp => absurd hmp hm⟩
      · rw [if_neg hsel] at hok
        injection hok with h2
        subst h2
        refine ⟨rfl, ?_, fun hmp => absurd hmp hm⟩
        exact List.mem_append_left _ (List.mem_append_right _ hmem)
    · rw [if_neg hm2] at hok
      injection hok with h2
      subst h2
      exact ⟨rfl, List.mem_append_right _ hmem, fun hmp => absurd hmp hm⟩

/-- Provider view for update in which the running instance i-1 is confirmed
unchanged. -/
def tickA : TickInput :=
  ⟨exPool, cfgA, false, [exInst], [], 100, updProv16, termProvOk, startProvOk1, cacheA, 10⟩

/-- C1 witness: the amended theorem on a concrete cycling tick with a
2-core deficit. -/
theorem c1_cycle_continues_into_scale_up_amended_witness :
    (check_instance_pool tickA =
      .ok ⟨⟨1, true, some 100⟩,
        [exInst, ⟨10, 1, "sir-1", "us-east-1", "us-east-1a", "", 256, 2, 100⟩], [],
        [.terminateCall true ["i-1"], .terminateRegion "us-east-1" true ["i-1"],
         .startPool 2, .spotRequest "us-east-1" "us-east-1a" "c4.large" 1 (mkRat 1 5)]⟩ ∧
      (tickA.entries.filter (fun e =>
        decide (e.pool = tickA.pool.id ∧ e.isCritical = true))).isEmpty = true ∧
      tickA.configBroken = false ∧
      tickA.pool.isEnabled = true ∧
      needsCycle tickA.pool tickA.config tickA.now = true ∧
      update_pool_instances tickA.pool tickA.updProv tickA.store tickA.entries =
        .ok ⟨[exInst], [], [], false, true⟩) ∧
    ((⟨⟨1, true, some 100⟩,
        [exInst, ⟨10, 1, "sir-1", "us-east-1", "us-east-1a", "", 256, 2, 100⟩], [],
        [.terminateCall true ["i-1"], .terminateRegion "us-east-1" true ["i-1"],
         .startPool 2, .spotRequest "us-east-1" "us-east-1a" "c4.large" 1 (mkRat 1 5)]⟩ :
        TickResult).pool.last_cycled = some tickA.now ∧
      Action.terminateCall true
        ((countCapacity tickA.pool.id (tickA.config.size : Int)
          (⟨[exInst], [], [], false, true⟩ : UpdResult).store).running.map
            (fun i => i.ec2_instance_id)) ∈
        (⟨⟨1, true, some 100⟩,
          [exInst, ⟨10, 1, "sir-1", "us-east-1", "us-east-1a", "", 256, 2, 100⟩], [],
          [.terminateCall true ["i-1"], .terminateRegion "us-east-1" true ["i-1"],
           .startPool 2, .spotRequest "us-east-1" "us-east-1a" "c4.large" 1 (mkRat 1 5)]⟩ :
          TickResult).actions ∧
      ((countCapacity tickA.pool.id (tickA.config.size : Int)
          (⟨[exInst], [], [], false, true⟩ : UpdResult).store).missing > 0 →
        Action.startPool (countCapacity tickA.pool.id (tickA.config.size : Int)
          (⟨[exInst], [], [], false, true⟩ : UpdResult).store).missing ∈
          (⟨⟨1, true, some 100⟩,
            [exInst, ⟨10, 1, "sir-1", "us-east-1", "us-east-1a", "", 256, 2, 100⟩], [],
            [.terminateCall true ["i-1"], .terminateRegion "us-east-1" true ["i-1"],
             .startPool 2, .spotRequest "us-east-1" "us-east-1a" "c4.large" 1 (mkRat 1 5)]⟩ :
            TickResult).actions)) := by
  refine ⟨⟨by decide, by decide, by decide, by decide, by decide, by decide⟩, ?_⟩
  exact c1_cycle_continues_into_scale_up_amended tickA _ ⟨[exInst], [], [], false, true⟩
    (by decide) (by decide) (by decide) (by decide) (by decide) (by decide)

/-- C1 counterexample: on an under-filled cycling pool the very same tick
both terminates by pool (cycling) and issues a spot request: the tick does
not return after the cycle step, contradicting the claim that scale-up
happens only on the next tick. -/
theorem c1_cycle_counterexample :
    check_instance_pool tickA =
      .ok ⟨⟨1, true, some 100⟩,
        [exInst, ⟨10, 1, "sir-1", "us-east-1", "us-east-1a", "", 256, 2, 100⟩], [],
        [.terminateCall true ["i-1"], .terminateRegion "us-east-1" true ["i-1"],
         .startPool 2, .spotRequest "us-east-1" "us-east-1a" "c4.large" 1 (mkRat 1 5)]⟩ ∧
    needsCycle tickA.pool tickA.config tickA.now = true ∧
    Action.startPool 2 ∈
      [Action.terminateCall true ["i-1"], .terminateRegion "us-east-1" true ["i-1"],
       .startPool 2, .spotRequest "us-east-1" "us-east-1a" "c4.large" 1 (mkRat 1 5)] := by
  refine ⟨by decide, by decide, by decide⟩

/-- The largest core count among the configured instance types (the "max
applicable CORES_PER_INSTANCE value" of the claimed capacity interval). -/
def maxApplicableCores (cfg : PoolConfig) : Int :=
  cfg.ec2_instance_types.foldl (fun m t => max m (((lookupCores t).getD 0 : Nat) : Int)) 0

theorem foldl_max_ge_init (l : List String) (m : Int) :
    m ≤ l.foldl (fun m t => max m (((lookupCores t).getD 0 : Nat) : Int)) m := by
  induction l generalizing m with
  | nil => exact le_refl m
  | cons a as ih =>
    exact le_trans (le_max_left m _) (ih (max m (((lookupCores a).getD 0 : Nat) : Int)))

theorem cores_le_foldl_max (l : List String) (t : String) (k : Nat) (m : Int)
    (hmem : t ∈ l) (hlook : lookupCores t = some k) :
    (k : Int) ≤ l.foldl (fun m t => max m (((lookupCores t).getD 0 : Nat) : Int)) m := by
  induction l generalizing m with
  | nil => cases hmem
  | cons a as ih =>
    rcases List.mem_cons.mp hmem with rfl | hmem'
    · simp only [List.foldl_cons, hlook]
      exact le_trans (le_max_right m (k : Int)) (foldl_max_ge_init as _)
    · exact ih _ hmem'

theorem cores_le_maxApplicable (cfg : PoolConfig) (t : String) (k : Nat)
    (hmem : t ∈ cfg.ec2_instance_types) (hlook : lookupCores t = some k) :
    (k : Int) ≤ maxApplicableCores cfg :=
  cores_le_foldl_max cfg.ec2_instance_types t k 0 hmem hlook

theorem poolCoreSum_append (p : Nat) (l1 l2 : List Instance) :
    poolCoreSum p (l1 ++ l2) = poolCoreSum p l1 + poolCoreSum p l2 := by
  simp [poolCoreSum, sumSizes, List.filter_append]

theorem poolCoreSum_mapIdx (p k : Nat) (l : List String) (g : Nat → String → Instance)
    (hp : ∀ i s, (g i s).pool = p) (hs : ∀ i s, (g i s).size = k) :
    poolCoreSum p (l.mapIdx g) = (l.length : Int) * (k : Int) := by
  induction l generalizing g with
  | nil => simp [poolCoreSum, sumSizes]
  | cons a as ih =>
    rw [List.mapIdx_cons]
    simp only [poolCoreSum, sumSizes, List.filter_cons]
    rw [if_pos (by simp [hp])]
    simp only [List.map_cons, List.sum_cons]
    have h2 := ih (fun i => g (i + 1)) (fun i s => hp (i + 1) s) (fun i s => hs (i + 1) s)
    simp only [poolCoreSum, sumSizes] at h2
    rw [h2, hs]
    simp only [List.length_cons]
    push_cast
    ring

/-- C8 (amended): on a tick without cycling whose scale-up finds at least
one configured type fitting the deficit (`acceptable_types` non-empty, so
the chosen type has at most `deficit` cores), with userdata, connect and
spot request all succeeding and the provider returning exactly the requested
number of request ids, the post-tick core total of the pool lies in
[config.size - max applicable cores, config.size].  The claimed interval
does NOT hold unconditionally: the smallest-type fallback can overshoot
`config.size` (see the counterexample), and terminations never update the
store within the tick. -/
theorem c8_capacity_interval_amended (inp : TickInput) (r : TickResult) (u : UpdResult)
    (sm : List String) (ss : Option Nat) (acc : List String) (best : BestResult)
    (t region zone : String) (k : Nat) (reqIds : List String)
    (hok : check_instance_pool inp = .ok r)
    (hfroz : (inp.entries.filter (fun e =>
      decide (e.pool = inp.pool.id ∧ e.isCritical = true))).isEmpty = true)
    (hcfg : inp.configBroken = false)
    (hen : inp.pool.isEnabled = true)
    (hncyc : needsCycle inp.pool inp.config inp.now = false)
    (hupd : update_pool_instances inp.pool inp.updProv inp.store inp.entries = .ok u)
    (hm : (countCapacity inp.pool.id (inp.config.size : Int) u.store).missing > 0)
    (hacc : acceptableFold (countCapacity inp.pool.id (inp.config.size : Int) u.store).missing
      inp.config.ec2_instance_types ([], none, []) = .ok (sm, ss, acc))
    (haccne : acc.isEmpty = false)
    (hbest : get_best_region_zone { inp.config with ec2_instance_types := acc } inp.cache =
      .ok best)
    (hty : best.ty = some t) (hreg : best.region = some region)
    (hzone : best.zone = some zone)
    (hmem : t ∈ inp.config.ec2_instance_types)
    (hlook : lookupCores t = some k) (hkpos : 0 < k)
    (hk : (k : Int) ≤ (countCapacity inp.pool.id (inp.config.size : Int) u.store).missing)
    (hud : inp.startProv.userdataOk = true) (hconn : inp.startProv.connect = .ok)
    (hspot : inp.startProv.spot = .ok reqIds)
    (hlen : reqIds.length = (max 1
      ((countCapacity inp.pool.id (inp.config.size : Int) u.store).missing /
        (k : Int))).toNat) :
    (inp.config.size : Int) - maxApplicableCores inp.config ≤
        poolCoreSum inp.pool.id r.store ∧
    poolCoreSum inp.pool.id r.store ≤ (inp.config.size : Int) := by
  set c := countCapacity inp.pool.id (inp.config.size : Int) u.store with hc
  unfold check_instance_pool at hok
  have hnf : ¬ ((inp.entries.filter (fun e =>
      decide (e.pool = inp.pool.id ∧ e.isCritical = true))).isEmpty = false) := by
    rw [hfroz]
    decide
  rw [if_neg hnf] at hok
  rw [if_neg (show ¬ _ from by simp [hcfg])] at hok
  simp only [hupd, ← hc] at hok
  rw [if_neg (show ¬ (inp.pool.isEnabled = false) from by simp [hen])] at hok
  simp only [hncyc, if_false, Bool.false_eq_true] at hok
  rw [if_pos hm] at hok
  rw [show start_pool_instances inp.pool inp.config inp.cache inp.startProv c.store
      (u.entries, ([] : List Action)).1 c.missing inp.freshPk inp.now =
      start_pool_instances inp.pool inp.config inp.cache inp.startProv c.store
        u.entries c.missing inp.freshPk inp.now from rfl] at hok
  have hstart : start_pool_instances inp.pool inp.config inp.cache inp.startProv c.store
      u.entries c.missing inp.freshPk inp.now = .ok
      ⟨c.store ++ reqIds.mapIdx (fun idx rid =>
          (⟨inp.freshPk + idx, inp.pool.id, rid, region, zone, "",
            INSTANCE_STATE "requested", k, inp.now⟩ : Instance)),
        (if (u.entries.filter (fun e =>
            decide (e.pool = inp.pool.id ∧ e.type = StatusKind.priceTooLow))).isEmpty then
          u.entries
        else u.entries.filter (fun e =>
          decide (¬ (e.pool = inp.pool.id ∧ e.type = StatusKind.priceTooLow)))),
        [.spotRequest region zone t (max 1 (c.missing / (k : Int))).toNat
          (pyMul inp.config.ec2_max_price (k : Rat))],
        some (region, zone, t, k, (max 1 (c.missing / (k : Int))).toNat)⟩ := by
    unfold start_pool_instances
    simp only [hacc, haccne, Bool.false_eq_true, if_false, hbest, hty, hlook, hreg, hzone,
      hud, hconn, hspot]
    rw [if_neg (show ¬ (true = false) from by decide)]
  rw [hstart] at hok
  injection hok with h2
  subst h2
  simp only
  have hsum : poolCoreSum inp.pool.id (c.store ++ reqIds.mapIdx (fun idx rid =>
      (⟨inp.freshPk + idx, inp.pool.id, rid, region, zone, "",
        INSTANCE_STATE "requested", k, inp.now⟩ : Instance))) =
      poolCoreSum inp.pool.id c.store + (reqIds.length : Int) * (k : Int) := by
    rw [poolCoreSum_append, poolCoreSum_mapIdx inp.pool.id k reqIds _
      (fun i s => rfl) (fun i s => rfl)]
  have hcsum : poolCoreSum inp.pool.id c.store = (inp.config.size : Int) - c.missing := by
    have := countCapacity_missing_eq inp.pool.id (inp.config.size : Int) u.store
    rw [← hc] at this
    omega
  have hkz : (k : Int) ≠ 0 := by
    exact_mod_cast Nat.pos_iff_ne_zero.mp hkpos
  have hdivpos : 1 ≤ c.missing / (k : Int) := by
    rw [Int.le_ediv_iff_mul_le (by exact_mod_cast hkpos)]
    simpa using hk
  have hmaxdiv : max 1 (c.missing / (k : Int)) = c.missing / (k : Int) :=
    max_eq_right hdivpos
  have hlen' : (reqIds.length : Int) = c.missing / (k : Int) := by
    rw [hlen, hmaxdiv]
    exact Int.toNat_of_nonneg (le_trans (by norm_num) hdivpos)
  have hmod : c.missing % (k : Int) = c.missing - (c.missing / (k : Int)) * (k : Int) := by
    rw [Int.emod_def]
    ring
  have hmod0 : 0 ≤ c.missing % (k : Int) := Int.emod_nonneg _ hkz
  have hmodlt : c.missing % (k : Int) < (k : Int) :=
    Int.emod_lt_of_pos _ (by exact_mod_cast hkpos)
  have hkmax : (k : Int) ≤ maxApplicableCores inp.config :=
    cores_le_maxApplicable inp.config t k hmem hlook
  rw [hsum, hcsum, hlen']
  constructor
  · omega
  · omega

/-- Configuration of the C8 counterexample: 2 cores wanted, but the only
allowed type has 8. -/
def cfg8 : PoolConfig := ⟨2, 3600, ["us-east-1"], ["c4.2xlarge"], mkRat 1 10⟩

/-- Cache for `cfg8`: one cheap c4.2xlarge sample. -/
def cache8 : PriceCache :=
  ⟨fun t =>
    if t = "c4.2xlarge" then some [("us-east-1", [("us-east-1a", [mkRat 4 10])])] else none,
   fun _ _ => false⟩

/-- A tick on an empty pool whose deficit (2) is smaller than the smallest
configured instance (8 cores). -/
def tick8 : TickInput :=
  ⟨⟨1, true, some 100⟩, cfg8, false, [], [], 100, updProv16, termProvOk,
    ⟨true, .ok, .ok ["sir-9"]⟩, cache8, 10⟩

/-- C8 counterexample: the smallest-type fallback requests one 8-core
instance for a 2-core deficit; after the tick the pool carries 8 cores,
outside the claimed interval [2 - 8, 2]. -/
theorem c8_capacity_interval_counterexample :
    check_instance_pool tick8 =
      .ok ⟨⟨1, true, some 100⟩,
        [⟨10, 1, "sir-9", "us-east-1", "us-east-1a", "", 256, 8, 100⟩], [],
        [.startPool 2, .spotRequest "us-east-1" "us-east-1a" "c4.2xlarge" 1 (mkRat 4 5)]⟩ ∧
    poolCoreSum 1 [⟨10, 1, "sir-9", "us-east-1", "us-east-1a", "", 256, 8, 100⟩] = 8 ∧
    maxApplicableCores cfg8 = 8 ∧
    ¬ ((8 : Int) ≤ (cfg8.size : Int)) := by
  refine ⟨by decide, by decide, by decide, by decide⟩

/-- Tick for the C8 witness: spec scenario 1 (8 cores wanted, c4.large and
c4.xlarge allowed, both cheap; two c4.xlarge instances are requested). -/
def tickW8 : TickInput :=
  ⟨⟨1, true, some 100⟩, c5wcfg, false, [], [], 100, updProv16, termProvOk,
    ⟨true, .ok, .ok ["sir-1", "sir-2"]⟩, c5wcache, 10⟩

/-- C8 witness: the amended theorem on the scenario-1 tick; the resulting
8 cores sit inside [8 - 4, 8]. -/
theorem c8_capacity_interval_amended_witness :
    (check_instance_pool tickW8 =
      .ok ⟨⟨1, true, some 100⟩,
        [⟨10, 1, "sir-1", "us-east-1", "us-east-1a", "", 256, 4, 100⟩,
         ⟨11, 1, "sir-2", "us-east-1", "us-east-1a", "", 256, 4, 100⟩], [],
        [.startPool 8, .spotRequest "us-east-1" "us-east-1a" "c4.xlarge" 2 (mkRat 2 5)]⟩) ∧
    ((tickW8.config.size : Int) - maxApplicableCores tickW8.config ≤
        poolCoreSum tickW8.pool.id
          (⟨⟨1, true, some 100⟩,
            [⟨10, 1, "sir-1", "us-east-1", "us-east-1a", "", 256, 4, 100⟩,
             ⟨11, 1, "sir-2", "us-east-1", "us-east-1a", "", 256, 4, 100⟩], [],
            [.startPool 8, .spotRequest "us-east-1" "us-east-1a" "c4.xlarge" 2
              (mkRat 2 5)]⟩ : TickResult).store ∧
      poolCoreSum tickW8.pool.id
          (⟨⟨1, true, some 100⟩,
            [⟨10, 1, "sir-1", "us-east-1", "us-east-1a", "", 256, 4, 100⟩,
             ⟨11, 1, "sir-2", "us-east-1", "us-east-1a", "", 256, 4, 100⟩], [],
            [.startPool 8, .spotRequest "us-east-1" "us-east-1a" "c4.xlarge" 2
              (mkRat 2 5)]⟩ : TickResult).store ≤ (tickW8.config.size : Int)) := by
  have hok : check_instance_pool tickW8 =
      .ok ⟨⟨1, true, some 100⟩,
        [⟨10, 1, "sir-1", "us-east-1", "us-east-1a", "", 256, 4, 100⟩,
         ⟨11, 1, "sir-2", "us-east-1", "us-east-1a", "", 256, 4, 100⟩], [],
        [.startPool 8, .spotRequest "us-east-1" "us-east-1a" "c4.xlarge" 2 (mkRat 2 5)]⟩ :=
    by decide
  refine ⟨hok, ?_⟩
  exact c8_capacity_interval_amended tickW8 _ ⟨[], [], [], false, true⟩
    ["c4.large"] (some 2) ["c4.large", "c4.xlarge"]
    ⟨some "us-east-1", some "us-east-1a", some "c4.xlarge", []⟩
    "c4.xlarge" "us-east-1" "us-east-1a" 4 ["sir-1", "sir-2"]
    hok (by decide) (by decide) (by decide) (by decide) (by decide) (by decide) (by decide)
    (by decide) (by decide) (by decide) (by decide) (by decide)
    (by decide) (by decide) (by decide) (by decide) (by decide) (by decide) (by decide)
    (by decide)

end EC2SpotManager
